import Mathlib

/-!
Verification development for the Container executor core of a
Kubernetes-native FaaS control plane: the function service cache
(fscache) and the reconciliation controller (Container executor).

Modelling conventions:
* Go strings are modelled as lists of unicode characters (`GoString`).
* Wall-clock time is modelled as an integer number of seconds (`GoTime`);
  `time.Since(t)` at instant `now` is `now - t`.
* Pointer-typed records stored in the caches are modelled by value with
  explicit state passing: an in-place field assignment through a stored
  pointer becomes an update of the cache entry in the returned state.
* Fallible calls return `Except GoError α`; a Go panic is modelled by an
  `Option` result being `none`.
* Calls into the Kubernetes API (and repository helpers that live outside
  the embedded files, such as createOrGetSvc) are uninterpreted oracle
  fields of an environment record; a `go`-dispatched background task is
  recorded as an event in the emitted trace, and its outcome never feeds
  back into the dispatching function's result.
-/

/-- Go string, modelled as its list of runes. -/
abbrev GoString := List Char

/-- Wall-clock instant / duration in seconds. -/
abbrev GoTime := Int

/-- Model of Go strings.ToLower: per-rune lowering. -/
def goToLower (s : GoString) : GoString := s.map Char.toLower

/-- Model of Go strings.Split(s, ".") — splitting on a single dot.
Like Go's Split, the result always has at least one element. -/
def goSplitDot : GoString → List GoString
  | [] => [[]]
  | c :: rest =>
    if c = '.' then [] :: goSplitDot rest
    else
      match goSplitDot rest with
      | [] => [[c]]
      | s :: ss => (c :: s) :: ss

/-- Error model: the ferror codes used by the cache plus wrapped cluster
errors. `ctx op subject inner` models fmt.Errorf with an operation
message, an object-name subject and a wrapped (%w) inner error. -/
inductive GoError where
  | notFound
  | nameExists
  | other (msg : String)
  | ctx (op : String) (subject : GoString) (inner : GoError)
deriving DecidableEq, Repr

/-- IsNotFoundError from fscache: checks the ferror code. A wrapped
error does not satisfy the type assertion, matching the Go code. -/
def IsNotFoundError : GoError → Bool
  | .notFound => true
  | _ => false

/-- IsNameExistError from fscache: checks the ferror code. -/
def IsNameExistError : GoError → Bool
  | .nameExists => true
  | _ => false

/-- Modelled from the spec: the generic expiring key-value cache
(pkg/cache, not under src/): a thread-safe map with set/get/delete/copy
and already-exists semantics. Entries are an association list. -/
structure Cache (K V : Type) where
  entries : List (K × V)
deriving DecidableEq

/-- Lookup of a key in an association list of cache entries. -/
def cacheLookup [DecidableEq K] (k : K) : List (K × V) → Option V
  | [] => none
  | (k', v) :: rest => if k' = k then some v else cacheLookup k rest

/-- Lookup of a key in the generic cache. -/
def Cache.find? [DecidableEq K] (c : Cache K V) (k : K) : Option V :=
  cacheLookup k c.entries

/-- Modelled from the spec: Get returns the stored value or a not-found
error. -/
def Cache.get [DecidableEq K] (c : Cache K V) (k : K) : Except GoError V :=
  match c.find? k with
  | some v => .ok v
  | none => .error .notFound

/-- Modelled from the spec: Set with already-exists semantics — if the
key is present the existing value is returned with a name-exists error
and the cache is unchanged; otherwise the value is inserted. The first
component mirrors Go's `(existing, err)` return pair. -/
def Cache.set [DecidableEq K] (c : Cache K V) (k : K) (v : V) :
    (V × Option GoError) × Cache K V :=
  match c.find? k with
  | some old => ((old, some .nameExists), c)
  | none => ((v, none), ⟨c.entries ++ [(k, v)]⟩)

/-- Modelled from the spec: Delete removes the key, failing with
not-found when absent. -/
def Cache.delete [DecidableEq K] (c : Cache K V) (k : K) :
    Option GoError × Cache K V :=
  match c.find? k with
  | some _ => (none, ⟨c.entries.filter (fun e => !(e.1 = k : Bool))⟩)
  | none => (some .notFound, c)

/-- Mutation of the record stored under a key, modelling an in-place
field assignment through the stored pointer. Keys are untouched. -/
def Cache.update [DecidableEq K] (c : Cache K V) (k : K) (v : V) : Cache K V :=
  ⟨c.entries.map (fun e => if e.1 = k then (e.1, v) else e)⟩

/-- Modelled from the spec: Copy returns a snapshot of the stored
values (the Go code iterates the copied map's values). -/
def Cache.values (c : Cache K V) : List V :=
  c.entries.map Prod.snd

/-- Keys currently present in the cache. -/
def Cache.keys (c : Cache K V) : List K :=
  c.entries.map Prod.fst

/-- Kubernetes object metadata, restricted to the fields the embedded
code reads. -/
structure ObjectMeta where
  name : GoString
  namespace' : GoString
  uid : GoString
  resourceVersion : GoString
deriving DecidableEq, Repr

/-- Kubernetes object reference as stored in FuncSvc.KubernetesObjects. -/
structure ObjectReference where
  kind : GoString
  name : GoString
  namespace' : GoString
  apiVersion : GoString
  resourceVersion : GoString
  uid : GoString
deriving DecidableEq, Repr

/-- Executor type tag. -/
inductive ExecutorType where
  | poolmgr
  | newdeploy
  | container
deriving DecidableEq, Repr

/-- ExecutionStrategy of a function's invoke strategy. Metrics and
Behavior are compared by deep equality only, so they are opaque values;
specializationTimeout stands for the remaining strategy fields that the
update path does not propagate to the HPA. -/
structure ExecutionStrategy where
  executorType : ExecutorType
  minScale : Int
  maxScale : Int
  metrics : List Nat
  behavior : Option Nat
  specializationTimeout : Int := 0
deriving DecidableEq, Repr

/-- InvokeStrategy wraps the execution strategy. -/
structure InvokeStrategy where
  executionStrategy : ExecutionStrategy
  strategyType : Nat := 0
deriving DecidableEq, Repr

/-- Function spec, restricted to the fields the embedded code reads.
Secrets, config maps and the pod spec are compared for (deep) equality
only, so they are opaque values; idleTimeout is Go's *int in seconds. -/
structure FunctionSpec where
  invokeStrategy : InvokeStrategy
  secrets : List Nat := []
  configMaps : List Nat := []
  podSpec : Option Nat := none
  idleTimeout : Option Int := none
deriving DecidableEq, Repr

/-- A fission function object. -/
structure Function where
  metadata : ObjectMeta
  spec : FunctionSpec
deriving DecidableEq, Repr

/-- Kubernetes Deployment, restricted to the fields the embedded code
reads: Spec.Replicas (reaper) and Status.AvailableReplicas (IsValid). -/
structure Deployment where
  specReplicas : Int
  statusAvailableReplicas : Int := 0
deriving DecidableEq, Repr

/-- HorizontalPodAutoscaler spec fields touched by updateFunction. -/
structure HorizontalPodAutoscaler where
  minReplicas : Option Int
  maxReplicas : Int
  metrics : List Nat
  behavior : Option Nat
deriving DecidableEq, Repr

/-- Generic created-or-fetched cluster object (service, deployment or
HPA) as seen by fnCreate when building object references. -/
structure KubeObj where
  name : GoString
  namespace' : GoString
  apiVersion : GoString := []
  resourceVersion : GoString := []
  uid : GoString := []
deriving DecidableEq, Repr

/-- FuncSvc: a live binding of a function identity to a backend, as in
fscache. Environment and CPULimit are opaque. -/
structure FuncSvc where
  name : GoString
  function : ObjectMeta
  environment : Option Nat := none
  address : GoString
  kubernetesObjects : List ObjectReference
  executor : ExecutorType
  cpuLimit : Int := 0
  ctime : GoTime := 0
  atime : GoTime := 0
deriving DecidableEq, Repr

/-- Modelled from the spec: the composite function key (crd.CacheKeyUR,
not under src/), a name+namespace+resource-version derived key. -/
structure CacheKeyUR where
  name : GoString
  namespace' : GoString
  resourceVersion : GoString
deriving DecidableEq, Repr

/-- CacheKeyURFromMeta builds the by-function cache key from function
metadata. -/
def CacheKeyURFromMeta (m : ObjectMeta) : CacheKeyUR :=
  ⟨m.name, m.namespace', m.resourceVersion⟩

/-- FunctionServiceCache state: the three indices over one FuncSvc
population, plus the pool cache abstracted to the list of Available
entries its ListAvailableValue snapshot would return (the pool cache's
own code is outside the embedded files). -/
structure FunctionServiceCache where
  byFunction : Cache CacheKeyUR FuncSvc
  byAddress : Cache GoString ObjectMeta
  byFunctionUID : Cache GoString ObjectMeta
  poolAvailable : List FuncSvc := []
deriving DecidableEq

/-- Request types of the fscache single-writer protocol. -/
inductive fscRequestType where
  | TOUCH
  | LISTOLD
  | LOG
  | LISTOLDPOOL
deriving DecidableEq, Repr

/-- Request value handed to the fscache worker; the dedicated reply
channel is modelled by the worker step's returned response. -/
structure fscRequest where
  requestType : fscRequestType
  address : GoString := []
  age : GoTime := 0
deriving DecidableEq, Repr

/-- Response sent back on a request's reply channel. -/
structure fscResponse where
  objects : List FuncSvc := []
  error : Option GoError := none
deriving DecidableEq, Repr

/-- GetByFunction: point lookup by function key; refreshes the stored
entry's Atime through the stored pointer, then returns a copy. -/
def FunctionServiceCache.GetByFunction (fsc : FunctionServiceCache)
    (m : ObjectMeta) (now : GoTime) :
    Except GoError FuncSvc × FunctionServiceCache :=
  let key := CacheKeyURFromMeta m
  match fsc.byFunction.get key with
  | .error e => (.error e, fsc)
  | .ok fsvc =>
    let fsvc' := { fsvc with atime := now }
    (.ok fsvc', { fsc with byFunction := fsc.byFunction.update key fsvc' })

/-- GetByFunctionUID: point lookup by function UID via the by-UID index,
then the by-function index; refreshes the entry's Atime, returns a copy. -/
def FunctionServiceCache.GetByFunctionUID (fsc : FunctionServiceCache)
    (uid : GoString) (now : GoTime) :
    Except GoError FuncSvc × FunctionServiceCache :=
  match fsc.byFunctionUID.get uid with
  | .error e => (.error e, fsc)
  | .ok m =>
    match fsc.byFunction.get (CacheKeyURFromMeta m) with
    | .error e => (.error e, fsc)
    | .ok fsvc =>
      let fsvc' := { fsvc with atime := now }
      (.ok fsvc',
        { fsc with byFunction := fsc.byFunction.update (CacheKeyURFromMeta m) fsvc' })

/-- Internal touch executed by the worker for a TOUCH request: find the
owning function through the by-address index and refresh its Atime. -/
def FunctionServiceCache._touchByAddress (fsc : FunctionServiceCache)
    (address : GoString) (now : GoTime) :
    Option GoError × FunctionServiceCache :=
  match fsc.byAddress.get address with
  | .error e => (some e, fsc)
  | .ok m =>
    match fsc.byFunction.get (CacheKeyURFromMeta m) with
    | .error e => (some e, fsc)
    | .ok fsvc =>
      (none, { fsc with
        byFunction := fsc.byFunction.update (CacheKeyURFromMeta m)
          { fsvc with atime := now } })

/-- TouchByAddress: the public wrapper that routes a TOUCH request
through the worker queue. Assuming a live worker, its observable effect
is exactly the internal touch. -/
def FunctionServiceCache.TouchByAddress (fsc : FunctionServiceCache)
    (address : GoString) (now : GoTime) :
    Option GoError × FunctionServiceCache :=
  fsc._touchByAddress address now

/-- Add: inserts a FuncSvc (passed by value) into the by-function index;
on a name-exists collision touches the existing entry and returns a copy
of it read through the existing pointer after the touch; otherwise stamps
Ctime/Atime on the stored record and best-effort inserts into the
by-address and by-UID indices, swallowing name-exists collisions there.
The result pair mirrors Go's `(existing, err)`. -/
def FunctionServiceCache.Add (fsc : FunctionServiceCache) (fsvc : FuncSvc)
    (now : GoTime) :
    (Option FuncSvc × Option GoError) × FunctionServiceCache :=
  let key := CacheKeyURFromMeta fsvc.function
  match fsc.byFunction.set key fsvc with
  | ((existing, some e), _) =>
    if IsNameExistError e then
      match fsc.TouchByAddress existing.address now with
      | (some e2, fsc') => ((none, some e2), fsc')
      | (none, fsc') =>
        -- fCopy := *existing — read through the pointer after the touch
        ((some ((fsc'.byFunction.find? key).getD existing), none), fsc')
    else ((none, some e), fsc)
  | ((_, none), byFn) =>
    let stored := { fsvc with ctime := now, atime := now }
    let fsc1 := { fsc with byFunction := byFn.update key stored }
    match (fsc1.byAddress.set fsvc.address fsvc.function) with
    | ((_, some e), _) =>
      if IsNameExistError e then ((none, none), fsc1)
      else ((none, some (.ctx "error caching fsvc" [] e)), fsc1)
    | ((_, none), byAddr) =>
      let fsc2 := { fsc1 with byAddress := byAddr }
      match (fsc2.byFunctionUID.set fsvc.function.uid fsvc.function) with
      | ((_, some e), _) =>
        if IsNameExistError e then ((none, none), fsc2)
        else ((none, some (.ctx "error caching fsvc by function uid" [] e)), fsc2)
      | ((_, none), byUID) =>
        ((none, none), { fsc2 with byFunctionUID := byUID })

/-- DeleteEntry: removes the entry from all three indices; a missing key
in any index is only logged, never surfaced to the caller. -/
def FunctionServiceCache.DeleteEntry (fsc : FunctionServiceCache)
    (fsvc : FuncSvc) : FunctionServiceCache :=
  let (_, byFn) := fsc.byFunction.delete (CacheKeyURFromMeta fsvc.function)
  let (_, byAddr) := fsc.byAddress.delete fsvc.address
  let (_, byUID) := fsc.byFunctionUID.delete fsvc.function.uid
  { fsc with byFunction := byFn, byAddress := byAddr, byFunctionUID := byUID }

/-- DeleteOld: no-op returning false while the entry's idle duration is
below minAge; otherwise deletes the entry and returns true. -/
def FunctionServiceCache.DeleteOld (fsc : FunctionServiceCache)
    (fsvc : FuncSvc) (minAge : GoTime) (now : GoTime) :
    (Bool × Option GoError) × FunctionServiceCache :=
  if now - fsvc.atime < minAge then ((false, none), fsc)
  else ((true, none), fsc.DeleteEntry fsvc)

/-- Loop body of the worker's LISTOLD branch: walk the by-UID snapshot,
resolve each metadata through the by-function index, and keep entries
idle for longer than the requested age. A failed resolution makes the
worker log and return, which kills the loop without a reply — modelled
as `none`. -/
def FunctionServiceCache.listOldLoop (fsc : FunctionServiceCache)
    (age : GoTime) (now : GoTime) : List ObjectMeta → Option (List FuncSvc)
  | [] => some []
  | m :: rest =>
    match fsc.byFunction.get (CacheKeyURFromMeta m) with
    | .error _ => none
    | .ok fsvc =>
      match fsc.listOldLoop age now rest with
      | none => none
      | some acc =>
        if now - fsvc.atime > age then some (fsvc :: acc) else some acc

/-- One iteration of the worker goroutine `service()`: receive a
request, execute it, send exactly one response — unless the LISTOLD
branch hits a by-function lookup failure, in which case the Go code
returns from the goroutine without replying (`none`). -/
def FunctionServiceCache.serviceStep (fsc : FunctionServiceCache)
    (req : fscRequest) (now : GoTime) :
    Option (fscResponse × FunctionServiceCache) :=
  match req.requestType with
  | .TOUCH =>
    let (e, fsc') := fsc._touchByAddress req.address now
    some ({ error := e }, fsc')
  | .LISTOLD =>
    match fsc.listOldLoop req.age now fsc.byFunctionUID.values with
    | none => none
    | some objs => some ({ objects := objs }, fsc)
  | .LOG => some ({}, fsc)
  | .LISTOLDPOOL =>
    let objs := fsc.poolAvailable.filter
      (fun fsvc => decide (now - fsvc.atime > req.age))
    some ({ objects := objs }, fsc)

/-- The worker processing a queue of requests strictly in arrival order.
Each request's slot holds the response sent on its reply channel, or
`none` when the worker is no longer alive to reply (the caller blocks
forever). The second component is the surviving worker state. -/
def FunctionServiceCache.serviceRun (fsc : FunctionServiceCache)
    (now : GoTime) : List fscRequest →
    List (Option fscResponse) × Option FunctionServiceCache
  | [] => ([], some fsc)
  | req :: rest =>
    match fsc.serviceStep req now with
    | none => (List.replicate (req :: rest).length none, none)
    | some (resp, fsc') =>
      let (resps, final) := fsc'.serviceRun now rest
      (some resp :: resps, final)

/-- ListOld through the worker queue: the caller blocks on its reply
channel; a dead-worker step means the caller never returns (`none`). -/
def FunctionServiceCache.ListOld (fsc : FunctionServiceCache)
    (age : GoTime) (now : GoTime) :
    Option ((List FuncSvc × Option GoError) × FunctionServiceCache) :=
  match fsc.serviceStep { requestType := .LISTOLD, age := age } now with
  | none => none
  | some (resp, fsc') => some ((resp.objects, resp.error), fsc')

/-- Shorthand to write Go string literals. -/
def gs (s : String) : GoString := s.toList

/-- MetaObjectToName: the namespace/name rendering used in wrapped error
messages. -/
def metaObjectToName (fn : Function) : GoString :=
  fn.metadata.namespace' ++ gs "/" ++ fn.metadata.name

/-- Trace events: every cluster-API call or dispatched background task
the Container executor performs, plus cache-level mutations of interest. -/
inductive CEvent where
  | createOrGetSvc (ns objName : GoString)
  | createOrGetDeployment (ns objName : GoString)
  | createOrGetHpa (objName : GoString)
  | goCleanupFunc (ns objName : GoString)
  | cacheAdd
  | getHpa (ns name : GoString)
  | updateHpa (hpa : HorizontalPodAutoscaler)
  | getDeployment (ns name : GoString)
  | updateDeployment (ns name : GoString)
  | cleanupContainer (ns objName : GoString)
  | scaleDeployment (ns name : GoString) (replicas : Int)
  | cacheDeleteEntry (uid : GoString)
deriving DecidableEq, Repr

/-- Environment of the Container executor: the cluster API client, the
informer listers, the namespace resolver and the repository helpers that
live outside the embedded files, all as uninterpreted oracles. -/
structure ClusterEnv where
  getFunctionNS : GoString → GoString
  createOrGetSvc : Function → GoString → GoString → Except GoError KubeObj
  createOrGetDeployment : Function → GoString → GoString → Except GoError KubeObj
  createOrGetHpa : Function → GoString → Except GoError KubeObj
  cleanupContainer : GoString → GoString → Except GoError Unit
  getHpa : GoString → GoString → Except GoError HorizontalPodAutoscaler
  updateHpa : HorizontalPodAutoscaler → Except GoError Unit
  getDeploymentSpec : Function → Int → GoString → GoString → Except GoError Nat
  updateDeployment : Nat → GoString → Except GoError Unit
  getDeployment : GoString → GoString → Except GoError Deployment
  functionsGet : GoString → GoString → Except GoError Function
  svcListerGet : GoString → GoString → Except GoError KubeObj
  deplListerGet : GoString → GoString → Except GoError Deployment
  defaultIdlePodReapTime : GoTime := 60

/-- getObjName: deterministic object name for a function — the prefix,
a length-bounded lower-cased combination of name and namespace, and the
last 17 characters of the UID. Go slices the UID as uid[len-17:], which
panics for a UID shorter than 17 runes (`none`). -/
def Container.getObjName (fn : Function) : Option GoString :=
  if fn.metadata.uid.length < 17 then none
  else
    let uid := fn.metadata.uid.drop (fn.metadata.uid.length - 17)
    let name := fn.metadata.name
    let ns := fn.metadata.namespace'
    let functionMetadata :=
      if name.length + ns.length < 35 then name ++ gs "-" ++ ns
      else
        (if name.length > 17 then name.take 17 else name) ++ gs "-" ++
          (if ns.length > 17 then ns.take 17 else ns)
    some (goToLower (gs "container-" ++ functionMetadata ++ gs "-" ++ uid))

/-- getDeploymentObj: the first object reference whose kind lowers to
"deployment". -/
def getDeploymentObj : List ObjectReference → Option ObjectReference
  | [] => none
  | obj :: rest =>
    if goToLower obj.kind = gs "deployment" then some obj
    else getDeploymentObj rest

/-- Check of one object reference inside IsValid's loop: a service must
still exist in the lister; a deployment must exist and have at least one
available replica; any other kind is not checked. -/
def Container.isValidObj (env : ClusterEnv) (obj : ObjectReference) : Bool :=
  if goToLower obj.kind = gs "service" then
    match env.svcListerGet obj.namespace' obj.name with
    | .error _ => false
    | .ok _ => true
  else if goToLower obj.kind = gs "deployment" then
    match env.deplListerGet obj.namespace' obj.name with
    | .error _ => false
    | .ok currentDeploy => decide (1 ≤ currentDeploy.statusAvailableReplicas)
  else true

/-- IsValid: validity check of a cached FuncSvc against the informer
listers before a consumer reuses it. -/
def Container.IsValid (env : ClusterEnv) (fsvc : FuncSvc) : Bool :=
  if (goSplitDot fsvc.address).length = 0 then false
  else if fsvc.kubernetesObjects.length = 0 then false
  else fsvc.kubernetesObjects.all (Container.isValidObj env)

/-- Formalisation of the claim's words for the validity check: whether
the cluster object behind one reference still exists (and nothing more).
This is a spec-side definition used to compare IsValid against the
claim, not a translation of repository code. -/
def specObjectExists (env : ClusterEnv) (obj : ObjectReference) : Bool :=
  if goToLower obj.kind = gs "service" then
    match env.svcListerGet obj.namespace' obj.name with
    | .error _ => false
    | .ok _ => true
  else if goToLower obj.kind = gs "deployment" then
    match env.deplListerGet obj.namespace' obj.name with
    | .error _ => false
    | .ok _ => true
  else if goToLower obj.kind = gs "horizontalpodautoscaler" then
    match env.getHpa obj.namespace' obj.name with
    | .error _ => false
    | .ok _ => true
  else false

/-- fnCreate: create service, then deployment, then HPA, in that order;
on any failure dispatch the cleanup task asynchronously and return the
underlying error wrapped with operation and object name; on success
insert a FuncSvc into the cache. `none` models the getObjName panic. -/
def Container.fnCreate (env : ClusterEnv) (fsc : FunctionServiceCache)
    (fn : Function) (now : GoTime) :
    Option (Except GoError FuncSvc × List CEvent × FunctionServiceCache) :=
  match Container.getObjName fn with
  | none => none
  | some objName =>
    let ns := env.getFunctionNS fn.metadata.namespace'
    match env.createOrGetSvc fn objName ns with
    | .error e =>
      some (.error (.ctx "error creating service" objName e),
        [.createOrGetSvc ns objName, .goCleanupFunc ns objName], fsc)
    | .ok svc =>
      let svcAddress := svc.name ++ gs "." ++ svc.namespace'
      match env.createOrGetDeployment fn objName ns with
      | .error e =>
        some (.error (.ctx "error creating deployment" objName e),
          [.createOrGetSvc ns objName, .createOrGetDeployment ns objName,
            .goCleanupFunc ns objName], fsc)
      | .ok depl =>
        match env.createOrGetHpa fn objName with
        | .error e =>
          some (.error (.ctx "error creating HPA" objName e),
            [.createOrGetSvc ns objName, .createOrGetDeployment ns objName,
              .createOrGetHpa objName, .goCleanupFunc ns objName], fsc)
        | .ok hpa =>
          let kubeObjRefs : List ObjectReference := [
            ⟨gs "deployment", depl.name, depl.namespace', depl.apiVersion,
              depl.resourceVersion, depl.uid⟩,
            ⟨gs "service", svc.name, svc.namespace', svc.apiVersion,
              svc.resourceVersion, svc.uid⟩,
            ⟨gs "horizontalpodautoscaler", hpa.name, hpa.namespace',
              hpa.apiVersion, hpa.resourceVersion, hpa.uid⟩]
          let fsvc : FuncSvc := {
            name := objName
            function := fn.metadata
            address := svcAddress
            kubernetesObjects := kubeObjRefs
            executor := .container }
          let events := [.createOrGetSvc ns objName,
            .createOrGetDeployment ns objName, .createOrGetHpa objName,
            CEvent.cacheAdd]
          match fsc.Add fsvc now with
          | ((_, some e), fsc') => some (.error e, events, fsc')
          | ((_, none), fsc') => some (.ok fsvc, events, fsc')

/-- createFunction for a sole caller: the executor-type dispatch and the
single-flight gate admitting this caller with ableToCreate true (no
contention), wrapping a creation failure with namespace/name context.
A non-Container function yields neither a service nor an error. -/
def Container.createFunction (env : ClusterEnv) (fsc : FunctionServiceCache)
    (fn : Function) (now : GoTime) :
    Option (Except GoError (Option FuncSvc) × List CEvent × FunctionServiceCache) :=
  if fn.spec.invokeStrategy.executionStrategy.executorType ≠ .container then
    some (.ok none, [], fsc)
  else
    match Container.fnCreate env fsc fn now with
    | none => none
    | some (.error e, ev, fsc') =>
      some (.error (.ctx "error creating k8s resources for function"
        (metaObjectToName fn) e), ev, fsc')
    | some (.ok fsvc, ev, fsc') => some (.ok (some fsvc), ev, fsc')

/-- Post-processing every throttler caller applies to the shared
`(value, error)` pair inside createFunction: wrap a non-nil error with
namespace/name context, otherwise surface the FuncSvc. -/
def Container.wrapThrottled (fn : Function) (r : Except GoError FuncSvc) :
    Except GoError (Option FuncSvc) :=
  match r with
  | .error e =>
    .error (.ctx "error creating k8s resources for function"
      (metaObjectToName fn) e)
  | .ok fsvc => .ok (some fsvc)

/-- Late callers of the single-flight gate run the closure with
ableToCreate false: a GetByFunctionUID cache read, threaded through the
cache state caller after caller. -/
def Container.lateCalls (fn : Function) (fsc : FunctionServiceCache)
    (now : GoTime) :
    Nat → List (Except GoError (Option FuncSvc)) × FunctionServiceCache
  | 0 => ([], fsc)
  | n + 1 =>
    let (r, fsc') := fsc.GetByFunctionUID fn.metadata.uid now
    let (rs, fsc'') := Container.lateCalls fn fsc' now n
    (Container.wrapThrottled fn r :: rs, fsc'')

/-- Modelled from the spec: the keyed single-flight gate
(pkg/throttler, not under src/). For one key, the first caller executes
the closure with ableToCreate true; the callers that arrive while that
invocation is in flight block and then receive the same (value, error)
pair; callers that arrive after completion execute the closure with
ableToCreate false themselves. This definition runs one contention batch
of createFunction callers for one function: one winner, nConcurrent
blocked waiters, then nLate post-completion callers, returning every
caller's result, the combined event trace and the final cache state. -/
def Container.createFunctionBatch (env : ClusterEnv)
    (fsc : FunctionServiceCache) (fn : Function) (now : GoTime)
    (nConcurrent nLate : Nat) :
    Option (List (Except GoError (Option FuncSvc)) × List CEvent ×
      FunctionServiceCache) :=
  if fn.spec.invokeStrategy.executionStrategy.executorType ≠ .container then
    some (List.replicate (1 + nConcurrent + nLate) (.ok none), [], fsc)
  else
    match Container.fnCreate env fsc fn now with
    | none => none
    | some (res, ev, fsc1) =>
      let winner := Container.wrapThrottled fn res
      let (lateResults, fsc2) := Container.lateCalls fn fsc1 now nLate
      some (List.replicate (1 + nConcurrent) winner ++ lateResults, ev, fsc2)

/-- fnDelete: find the entry by UID, evict it from the cache with zero
grace, then delete the cluster objects, aggregating partial failures. -/
def Container.fnDelete (env : ClusterEnv) (fsc : FunctionServiceCache)
    (fn : Function) (now : GoTime) :
    Except GoError Unit × List CEvent × FunctionServiceCache :=
  match fsc.GetByFunctionUID fn.metadata.uid now with
  | (.error e, fsc') =>
    (.error (.ctx "fsvc not found in cache" (metaObjectToName fn) e), [], fsc')
  | (.ok fsvc, fsc') =>
    let objName := fsvc.name
    let (_, fsc'') := fsc'.DeleteOld fsvc 0 now
    let ns := env.getFunctionNS fn.metadata.namespace'
    match env.cleanupContainer ns objName with
    | .error e =>
      (.error e, [.cacheDeleteEntry fn.metadata.uid,
        .cleanupContainer ns objName], fsc'')
    | .ok _ =>
      (.ok (), [.cacheDeleteEntry fn.metadata.uid,
        .cleanupContainer ns objName], fsc'')

/-- deleteFunction: no-op for functions whose executor type is not
Container; otherwise fnDelete with namespace/name error context. -/
def Container.deleteFunction (env : ClusterEnv) (fsc : FunctionServiceCache)
    (fn : Function) (now : GoTime) :
    Except GoError Unit × List CEvent × FunctionServiceCache :=
  if fn.spec.invokeStrategy.executionStrategy.executorType ≠ .container then
    (.ok (), [], fsc)
  else
    match Container.fnDelete env fsc fn now with
    | (.error e, ev, fsc') =>
      (.error (.ctx "error deleting kubernetes objects of function"
        (metaObjectToName fn) e), ev, fsc')
    | (.ok _, ev, fsc') => (.ok (), ev, fsc')

/-- updateFuncDeployment: look up the entry by UID, fetch the existing
deployment, build a new deployment spec reusing the current replica count
(not the strategy's minimum), and update the deployment — a rolling
update of the function's pods. -/
def Container.updateFuncDeployment (env : ClusterEnv)
    (fsc : FunctionServiceCache) (fn : Function) (now : GoTime) :
    Except GoError Unit × List CEvent × FunctionServiceCache :=
  match fsc.GetByFunctionUID fn.metadata.uid now with
  | (.error e, fsc') =>
    (.error (.ctx "error updating function due to unable to find function service cache"
      (metaObjectToName fn) e), [], fsc')
  | (.ok fsvc, fsc') =>
    let fnObjName := fsvc.name
    let ns := env.getFunctionNS fn.metadata.namespace'
    match env.getDeployment ns fnObjName with
    | .error e => (.error e, [.getDeployment ns fnObjName], fsc')
    | .ok existingDepl =>
      match env.getDeploymentSpec fn existingDepl.specReplicas fnObjName ns with
      | .error e => (.error e, [.getDeployment ns fnObjName], fsc')
      | .ok newDeployment =>
        match env.updateDeployment newDeployment ns with
        | .error e =>
          (.error e, [.getDeployment ns fnObjName,
            .updateDeployment ns fnObjName], fsc')
        | .ok _ =>
          (.ok (), [.getDeployment ns fnObjName,
            .updateDeployment ns fnObjName], fsc')

/-- Field-by-field application of a strategy change to the fetched HPA:
each of min scale, max scale, metrics and behavior is written only when
it differs, and the flag records whether anything changed. -/
def applyStrategyToHpa (oldES newES : ExecutionStrategy)
    (hpa : HorizontalPodAutoscaler) : HorizontalPodAutoscaler × Bool :=
  let s1 :=
    if newES.minScale ≠ oldES.minScale then
      ({ hpa with minReplicas := some newES.minScale }, true)
    else (hpa, false)
  let s2 :=
    if newES.maxScale ≠ oldES.maxScale then
      ({ s1.1 with maxReplicas := newES.maxScale }, true)
    else s1
  let s3 :=
    if newES.metrics ≠ oldES.metrics then
      ({ s2.1 with metrics := newES.metrics }, true)
    else s2
  if newES.behavior ≠ oldES.behavior then
    ({ s3.1 with behavior := newES.behavior }, true)
  else s3

/-- Invoke-strategy section of updateFunction: when the strategies
differ, fetch the HPA and patch exactly the strategy fields that
changed, updating the HPA only when at least one of them did. -/
def Container.updateFnHpa (env : ClusterEnv) (fsc : FunctionServiceCache)
    (oldFn newFn : Function) (now : GoTime) :
    Except GoError Unit × List CEvent × FunctionServiceCache :=
  if oldFn.spec.invokeStrategy = newFn.spec.invokeStrategy then (.ok (), [], fsc)
  else
    let ns := env.getFunctionNS newFn.metadata.namespace'
    match fsc.GetByFunctionUID newFn.metadata.uid now with
    | (.error e, fsc') =>
      (.error (.ctx "error updating function due to unable to find function service cache"
        (metaObjectToName oldFn) e), [], fsc')
    | (.ok fsvc, fsc') =>
      match env.getHpa ns fsvc.name with
      | .error e => (.error e, [.getHpa ns fsvc.name], fsc')
      | .ok hpa =>
        let s4 := applyStrategyToHpa oldFn.spec.invokeStrategy.executionStrategy
          newFn.spec.invokeStrategy.executionStrategy hpa
        if s4.2 then
          match env.updateHpa s4.1 with
          | .error e => (.error e, [.getHpa ns fsvc.name, .updateHpa s4.1], fsc')
          | .ok _ => (.ok (), [.getHpa ns fsvc.name, .updateHpa s4.1], fsc')
        else (.ok (), [.getHpa ns fsvc.name], fsc')

/-- updateFunction: classify the function delta. Same resource version
or neither type Container: no-op. Executor type left Container: delete
using the old record. Executor type became Container: create. Otherwise
patch the HPA for strategy changes, then patch the deployment only when
secrets, config maps or the pod template changed (the Go code compares
the secret and config-map slices length-then-elementwise, which is list
equality, and the pod spec by reflect.DeepEqual). -/
def Container.updateFunction (env : ClusterEnv) (fsc : FunctionServiceCache)
    (oldFn newFn : Function) (now : GoTime) :
    Option (Except GoError Unit × List CEvent × FunctionServiceCache) :=
  if oldFn.metadata.resourceVersion = newFn.metadata.resourceVersion then
    some (.ok (), [], fsc)
  else
    let oldType := oldFn.spec.invokeStrategy.executionStrategy.executorType
    let newType := newFn.spec.invokeStrategy.executionStrategy.executorType
    if newType ≠ .container ∧ oldType ≠ .container then some (.ok (), [], fsc)
    else if newType ≠ .container ∧ oldType = .container then
      some (Container.deleteFunction env fsc oldFn now)
    else if oldType ≠ .container ∧ newType = .container then
      match Container.createFunction env fsc newFn now with
      | none => none
      | some (.error e, ev, fsc') => some (.error e, ev, fsc')
      | some (.ok _, ev, fsc') => some (.ok (), ev, fsc')
    else
      match Container.updateFnHpa env fsc oldFn newFn now with
      | (.error e, ev, fsc1) => some (.error e, ev, fsc1)
      | (.ok _, ev1, fsc1) =>
        let deployChanged :=
          decide (oldFn.spec.secrets ≠ newFn.spec.secrets) ||
          decide (oldFn.spec.configMaps ≠ newFn.spec.configMaps) ||
          decide (oldFn.spec.podSpec ≠ newFn.spec.podSpec)
        if deployChanged then
          match Container.updateFuncDeployment env fsc1 newFn now with
          | (r, ev2, fsc2) => some (r, ev1 ++ ev2, fsc2)
        else some (.ok (), ev1, fsc1)

/-- Body of one reaper iteration for one listed entry: skip entries of
other executors, skip entries whose function is gone or unreadable,
compute the idle timeout (per-function override, else the controller
default), skip entries not yet idle long enough, and inside the
dispatched task scale the deployment down to MinScale unless the current
replica count is already at or below it. The produced event is the
scaling API call. -/
def Container.reapOne (env : ClusterEnv) (now : GoTime) (fsvc : FuncSvc) :
    Option CEvent :=
  if fsvc.executor ≠ .container then none
  else
    match env.functionsGet fsvc.function.namespace' fsvc.function.name with
    | .error _ => none
    | .ok fn =>
      let idlePodReapTime :=
        match fn.spec.idleTimeout with
        | some t => t
        | none => env.defaultIdlePodReapTime
      if now - fsvc.atime < idlePodReapTime then none
      else
        match getDeploymentObj fsvc.kubernetesObjects with
        | none => none
        | some deployObj =>
          match env.getDeployment deployObj.namespace' deployObj.name with
          | .error _ => none
          | .ok currentDeploy =>
            let minScale := fn.spec.invokeStrategy.executionStrategy.minScale
            if currentDeploy.specReplicas ≤ minScale then none
            else some (.scaleDeployment deployObj.namespace' deployObj.name minScale)

/-- doIdleObjectReaper: one reaper pass. List entries idle for more than
five seconds through the worker queue (a dead worker blocks the pass:
`none`), then evaluate each entry independently; the returned events are
the dispatched scale-down API calls and the returned state is the cache
afterwards. -/
def Container.doIdleObjectReaper (env : ClusterEnv)
    (fsc : FunctionServiceCache) (now : GoTime) :
    Option (List CEvent × FunctionServiceCache) :=
  match fsc.ListOld 5 now with
  | none => none
  | some ((funcSvcs, e), fsc') =>
    match e with
    | some _ => some ([], fsc')
    | none => some (funcSvcs.filterMap (Container.reapOne env now), fsc')

/-- GetFuncSvc: the public entry point of the Container executor,
delegating to createFunction. -/
def Container.GetFuncSvc (env : ClusterEnv) (fsc : FunctionServiceCache)
    (fn : Function) (now : GoTime) :
    Option (Except GoError (Option FuncSvc) × List CEvent × FunctionServiceCache) :=
  Container.createFunction env fsc fn now

/-- Concrete, fully-succeeding environment used to instantiate theorems
with hypotheses at explicit inputs. -/
def envStd : ClusterEnv where
  getFunctionNS := fun ns => ns
  createOrGetSvc := fun _ objName ns => .ok ⟨objName, ns, gs "v1", gs "1", gs "svcuid"⟩
  createOrGetDeployment := fun _ objName ns =>
    .ok ⟨objName, ns, gs "apps/v1", gs "1", gs "depuid"⟩
  createOrGetHpa := fun _ objName =>
    .ok ⟨objName, gs "default", gs "autoscaling/v2", gs "1", gs "hpauid"⟩
  cleanupContainer := fun _ _ => .ok ()
  getHpa := fun _ _ => .ok ⟨some 1, 5, [], none⟩
  updateHpa := fun _ => .ok ()
  getDeploymentSpec := fun _ _ _ _ => .ok 0
  updateDeployment := fun _ _ => .ok ()
  getDeployment := fun _ _ => .ok ⟨3, 3⟩
  functionsGet := fun _ _ => .error .notFound
  svcListerGet := fun _ _ => .ok ⟨gs "s", gs "ns", [], [], []⟩
  deplListerGet := fun _ _ => .ok ⟨1, 1⟩

/-- Concrete function metadata used to instantiate theorems. -/
def m0 : ObjectMeta := ⟨gs "f1", gs "fission", gs "u1", gs "1"⟩

/-- Concrete cached FuncSvc used to instantiate theorems. -/
def fsvc0 : FuncSvc where
  name := gs "obj"
  function := m0
  address := gs "a.b"
  kubernetesObjects :=
    [⟨gs "deployment", gs "obj", gs "fission", gs "apps/v1", gs "1", gs "d1"⟩]
  executor := .container

/-- Concrete cache state holding fsvc0 consistently in all three
indices. -/
def fscA : FunctionServiceCache :=
  ⟨⟨[(CacheKeyURFromMeta m0, fsvc0)]⟩, ⟨[(gs "a.b", m0)]⟩,
    ⟨[(gs "u1", m0)]⟩, []⟩

/-- The empty cache state. -/
def fscEmpty : FunctionServiceCache := ⟨⟨[]⟩, ⟨[]⟩, ⟨[]⟩, []⟩

/-- Concrete Container-typed function with a full-length UID. -/
def fn1 : Function :=
  ⟨⟨gs "f1", gs "fission", gs "a0b1c2d3-e4f5-6789-abcd-ef0123456789", gs "1"⟩,
    ⟨⟨.container, 1, 5, [], none, 0⟩, 0⟩, [], [], none, none⟩

/-- Object name of fn1. -/
def objName1 : GoString := gs "container-f1-fission-abcd-ef0123456789"

/-- Environment whose service creation fails. -/
def envSvcFail : ClusterEnv :=
  { envStd with createOrGetSvc := fun _ _ _ => .error (.other "boom") }

/-- Deployment reference of the concrete FuncSvc below. -/
def deplRef1 : ObjectReference :=
  ⟨gs "deployment", objName1, gs "fission", gs "apps/v1", gs "1", gs "d"⟩

/-- Service reference of the concrete FuncSvc below. -/
def svcRef1 : ObjectReference :=
  ⟨gs "service", objName1, gs "fission", gs "v1", gs "1", gs "s"⟩

/-- HPA reference of the concrete FuncSvc below. -/
def hpaRef1 : ObjectReference :=
  ⟨gs "horizontalpodautoscaler", objName1, gs "fission", gs "autoscaling/v2",
    gs "1", gs "h"⟩

/-- Concrete FuncSvc referencing a deployment, a service and an HPA. -/
def fsvcFull : FuncSvc where
  name := objName1
  function := fn1.metadata
  address := gs "a.b"
  kubernetesObjects := [deplRef1, svcRef1, hpaRef1]
  executor := .container

/-- Environment in which the HPA object has been deleted but the
service and deployment still exist with one available replica. -/
def envHpaGone : ClusterEnv :=
  { envStd with getHpa := fun _ _ => .error .notFound }

/-- Cache state whose by-UID index holds a metadata record whose
function key is absent from the by-function index — the state left
behind when a concurrent DeleteEntry (which bypasses the worker queue)
has removed the by-function entry but not yet the by-UID entry. -/
def fscBad : FunctionServiceCache :=
  ⟨⟨[]⟩, ⟨[]⟩, ⟨[(gs "u1", m0)]⟩, []⟩

/-- Metadata of the idle function used in reaper scenarios. -/
def mIdle : ObjectMeta := ⟨gs "f2", gs "fission", gs "u2", gs "2"⟩

/-- Deployment reference of the idle function's FuncSvc. -/
def deplRefIdle : ObjectReference :=
  ⟨gs "deployment", gs "d2", gs "fission", gs "apps/v1", gs "1", gs "du"⟩

/-- Idle Container function with a one-second idle timeout override and
MinScale zero. -/
def fnIdle : Function :=
  ⟨mIdle, ⟨⟨.container, 0, 5, [], none, 0⟩, 0⟩, [], [], none, some 1⟩

/-- Cached FuncSvc of fnIdle, last touched at time 97. -/
def fsvcIdle : FuncSvc where
  name := gs "d2"
  function := mIdle
  address := gs "x.y"
  kubernetesObjects := [deplRefIdle]
  executor := .container
  atime := 97

/-- Cache state holding fsvcIdle consistently. -/
def fscIdle : FunctionServiceCache :=
  ⟨⟨[(CacheKeyURFromMeta mIdle, fsvcIdle)]⟩, ⟨[(gs "x.y", mIdle)]⟩,
    ⟨[(gs "u2", mIdle)]⟩, []⟩

/-- Reaper environment: fnIdle is resolvable and its deployment
currently runs two replicas. -/
def envReap : ClusterEnv :=
  { envStd with
    functionsGet := fun ns n =>
      if ns = gs "fission" ∧ n = gs "f2" then .ok fnIdle
      else .error .notFound
    getDeployment := fun _ _ => .ok ⟨2, 2⟩ }

/-- Old revision of the updated function (MaxScale 5). -/
def oldF6 : Function :=
  ⟨⟨gs "f1", gs "fission", gs "u1", gs "1"⟩,
    ⟨⟨.container, 1, 5, [], none, 0⟩, 0⟩, [], [], none, none⟩

/-- New revision of the updated function (MaxScale 10, everything else
unchanged). -/
def newF6 : Function :=
  ⟨⟨gs "f1", gs "fission", gs "u1", gs "2"⟩,
    ⟨⟨.container, 1, 10, [], none, 0⟩, 0⟩, [], [], none, none⟩

/-- Is this event a create-or-get call for the function's Service? -/
def isCreateSvcEvent : CEvent → Bool
  | .createOrGetSvc _ _ => true
  | _ => false

/-- Is this event a create-or-get call for the function's Deployment? -/
def isCreateDeplEvent : CEvent → Bool
  | .createOrGetDeployment _ _ => true
  | _ => false

/-- Is this event a create-or-get call for the function's HPA? -/
def isCreateHpaEvent : CEvent → Bool
  | .createOrGetHpa _ => true
  | _ => false

/-! Helper lemmas. -/

/-- Unpacking a valid codepoint round-trips through Char.ofNatAux. -/
theorem char_toNat_ofNatAux (n : Nat) (h : n.isValidChar) :
    (Char.ofNatAux n h).toNat = n := by
  simp [Char.ofNatAux, Char.toNat, UInt32.toNat, BitVec.toNat_ofNatLt]

/-- Characterisation of Char.isUpper through toNat. -/
theorem char_isUpper_iff (c : Char) :
    c.isUpper = true ↔ 65 ≤ c.toNat ∧ c.toNat ≤ 90 := by
  unfold Char.isUpper
  simp only [Bool.and_eq_true, decide_eq_true_eq]
  exact ⟨fun ⟨h1, h2⟩ => ⟨h1, h2⟩, fun ⟨h1, h2⟩ => ⟨h1, h2⟩⟩

/-- Lowering a character never yields an upper-case character. -/
theorem toLower_isUpper_false (c : Char) :
    (Char.toLower c).isUpper = false := by
  unfold Char.toLower
  by_cases h : 65 ≤ c.toNat ∧ c.toNat ≤ 90
  · simp only [ge_iff_le, h, and_self, if_true]
    have hv : Nat.isValidChar (Char.toNat c + 32) := by left; omega
    rw [Bool.eq_false_iff]
    intro hcon
    rw [char_isUpper_iff] at hcon
    unfold Char.ofNat at hcon
    rw [dif_pos hv] at hcon
    rw [char_toNat_ofNatAux] at hcon
    omega
  · simp only [ge_iff_le, h, if_false]
    rw [Bool.eq_false_iff]
    intro hcon
    rw [char_isUpper_iff] at hcon
    exact h hcon

/-- Every character of a lowered Go string is non-upper. -/
theorem goToLower_not_upper (s : GoString) :
    ∀ c ∈ goToLower s, c.isUpper = false := by
  intro c hc
  unfold goToLower at hc
  obtain ⟨a, _, rfl⟩ := List.mem_map.mp hc
  exact toLower_isUpper_false a

/-- Length bound of getObjName's name/namespace combination. -/
theorem functionMetadata_length_le (name ns : GoString) :
    (if name.length + ns.length < 35 then name ++ gs "-" ++ ns
      else (if name.length > 17 then name.take 17 else name) ++ gs "-" ++
        (if ns.length > 17 then ns.take 17 else ns)).length ≤ 35 := by
  have hdash : (gs "-").length = 1 := by decide
  by_cases hcase : name.length + ns.length < 35
  · rw [if_pos hcase]
    simp only [List.length_append]
    omega
  · rw [if_neg hcase]
    have h1 : (if name.length > 17 then name.take 17 else name).length ≤ 17 := by
      by_cases hn : name.length > 17
      · rw [if_pos hn]; simp [List.length_take]
      · rw [if_neg hn]; omega
    have h2 : (if ns.length > 17 then ns.take 17 else ns).length ≤ 17 := by
      by_cases hn : ns.length > 17
      · rw [if_pos hn]; simp [List.length_take]
      · rw [if_neg hn]; omega
    simp only [List.length_append]
    omega

/-- C9: getObjName is deterministic in the function metadata and, for
any UID of at least 17 characters, returns a fully lower-cased name of
the shape prefix + length-bounded name/namespace combination + the last
17 characters of the UID, never exceeding 63 characters in total. -/
theorem getObjName_deterministic_lowercase_bounded (fn : Function)
    (h : 17 ≤ fn.metadata.uid.length) :
    ∃ out, Container.getObjName fn = some out ∧
      (∃ mid, out = goToLower (gs "container-" ++ mid ++ gs "-" ++
          fn.metadata.uid.drop (fn.metadata.uid.length - 17)) ∧
        mid.length ≤ 35) ∧
      out.length ≤ 63 ∧
      (∀ c ∈ out, c.isUpper = false) ∧
      (∀ fn2 : Function, fn2.metadata = fn.metadata →
        Container.getObjName fn2 = Container.getObjName fn) := by
  have hdet : ∀ fn2 : Function, fn2.metadata = fn.metadata →
      Container.getObjName fn2 = Container.getObjName fn := by
    intro fn2 hm
    unfold Container.getObjName
    rw [hm]
  have key : Container.getObjName fn = some (goToLower (gs "container-" ++
      (if fn.metadata.name.length + fn.metadata.namespace'.length < 35 then
        fn.metadata.name ++ gs "-" ++ fn.metadata.namespace'
      else (if fn.metadata.name.length > 17 then fn.metadata.name.take 17
          else fn.metadata.name) ++ gs "-" ++
        (if fn.metadata.namespace'.length > 17 then fn.metadata.namespace'.take 17
          else fn.metadata.namespace')) ++
      gs "-" ++ fn.metadata.uid.drop (fn.metadata.uid.length - 17))) := by
    unfold Container.getObjName
    rw [if_neg (by omega)]
  refine ⟨_, key, ⟨_, rfl, functionMetadata_length_le _ _⟩, ?_, goToLower_not_upper _, hdet⟩
  unfold goToLower
  simp only [List.length_map, List.length_append, List.length_drop]
  have h10 : (gs "container-").length = 10 := by decide
  have hdash : (gs "-").length = 1 := by decide
  have := functionMetadata_length_le fn.metadata.name fn.metadata.namespace'
  omega

/-- Witness for C9 at a concrete function. -/
theorem getObjName_deterministic_lowercase_bounded_witness :
    17 ≤ (gs "a0b1c2d3-e4f5-6789-abcd-ef0123456789").length ∧
    (∃ out, Container.getObjName
        ⟨⟨gs "Func1", gs "default", gs "a0b1c2d3-e4f5-6789-abcd-ef0123456789",
          gs "100"⟩,
          ⟨⟨.container, 1, 5, [], none, 0⟩, 0⟩, [], [], none, none⟩ = some out ∧
      (∃ mid, out = goToLower (gs "container-" ++ mid ++ gs "-" ++
          (gs "a0b1c2d3-e4f5-6789-abcd-ef0123456789").drop
            ((gs "a0b1c2d3-e4f5-6789-abcd-ef0123456789").length - 17)) ∧
        mid.length ≤ 35) ∧
      out.length ≤ 63 ∧
      (∀ c ∈ out, c.isUpper = false) ∧
      (∀ fn2 : Function,
        fn2.metadata = ⟨gs "Func1", gs "default",
          gs "a0b1c2d3-e4f5-6789-abcd-ef0123456789", gs "100"⟩ →
        Container.getObjName fn2 = Container.getObjName
          ⟨⟨gs "Func1", gs "default", gs "a0b1c2d3-e4f5-6789-abcd-ef0123456789",
            gs "100"⟩,
            ⟨⟨.container, 1, 5, [], none, 0⟩, 0⟩, [], [], none, none⟩)) :=
  ⟨by decide, getObjName_deterministic_lowercase_bounded _ (by decide)⟩

/-- C10: a function whose executor type is not Container makes
createFunction — and hence the public GetFuncSvc — return neither a
FuncSvc nor an error, and makes deleteFunction return nil, with no event
emitted and the cache untouched in all three cases. -/
theorem createFunction_deleteFunction_nonContainer (env : ClusterEnv)
    (fsc : FunctionServiceCache) (fn : Function) (now : GoTime)
    (h : fn.spec.invokeStrategy.executionStrategy.executorType ≠ .container) :
    Container.createFunction env fsc fn now = some (.ok none, [], fsc) ∧
    Container.GetFuncSvc env fsc fn now = some (.ok none, [], fsc) ∧
    Container.deleteFunction env fsc fn now = (.ok (), [], fsc) := by
  have hc : Container.createFunction env fsc fn now = some (.ok none, [], fsc) := by
    unfold Container.createFunction
    rw [if_pos h]
  refine ⟨hc, hc, ?_⟩
  unfold Container.deleteFunction
  rw [if_pos h]

/-- Witness for C10 at a concrete poolmgr-typed function. -/
theorem createFunction_deleteFunction_nonContainer_witness :
    (⟨⟨gs "f", gs "ns", gs "u", gs "1"⟩,
        ⟨⟨.poolmgr, 0, 1, [], none, 0⟩, 0⟩, [], [], none, none⟩ :
      Function).spec.invokeStrategy.executionStrategy.executorType ≠
        .container ∧
    Container.createFunction envStd ⟨⟨[]⟩, ⟨[]⟩, ⟨[]⟩, []⟩
        ⟨⟨gs "f", gs "ns", gs "u", gs "1"⟩,
          ⟨⟨.poolmgr, 0, 1, [], none, 0⟩, 0⟩, [], [], none, none⟩ 50 =
      some (.ok none, [], ⟨⟨[]⟩, ⟨[]⟩, ⟨[]⟩, []⟩) ∧
    Container.GetFuncSvc envStd ⟨⟨[]⟩, ⟨[]⟩, ⟨[]⟩, []⟩
        ⟨⟨gs "f", gs "ns", gs "u", gs "1"⟩,
          ⟨⟨.poolmgr, 0, 1, [], none, 0⟩, 0⟩, [], [], none, none⟩ 50 =
      some (.ok none, [], ⟨⟨[]⟩, ⟨[]⟩, ⟨[]⟩, []⟩) ∧
    Container.deleteFunction envStd ⟨⟨[]⟩, ⟨[]⟩, ⟨[]⟩, []⟩
        ⟨⟨gs "f", gs "ns", gs "u", gs "1"⟩,
          ⟨⟨.poolmgr, 0, 1, [], none, 0⟩, 0⟩, [], [], none, none⟩ 50 =
      (.ok (), [], ⟨⟨[]⟩, ⟨[]⟩, ⟨[]⟩, []⟩) :=
  ⟨by decide,
    createFunction_deleteFunction_nonContainer envStd ⟨⟨[]⟩, ⟨[]⟩, ⟨[]⟩, []⟩
      ⟨⟨gs "f", gs "ns", gs "u", gs "1"⟩,
        ⟨⟨.poolmgr, 0, 1, [], none, 0⟩, 0⟩, [], [], none, none⟩ 50 (by decide)⟩

/-- Updating a stored key rewrites exactly that key's value (list form). -/
theorem cacheLookup_map_update [DecidableEq K] (k : K) (v : V) :
    ∀ l : List (K × V),
      cacheLookup k (l.map (fun e => if e.1 = k then (e.1, v) else e)) =
        (cacheLookup k l).map (fun _ => v)
  | [] => rfl
  | (k1, v1) :: rest => by
    show cacheLookup k ((if k1 = k then (k1, v) else (k1, v1)) ::
        rest.map (fun e => if e.1 = k then (e.1, v) else e)) =
      (cacheLookup k ((k1, v1) :: rest)).map (fun _ => v)
    by_cases he : k1 = k
    · rw [if_pos he]
      simp only [cacheLookup]
      rw [if_pos he, if_pos he]
      rfl
    · rw [if_neg he]
      simp only [cacheLookup]
      rw [if_neg he, if_neg he]
      exact cacheLookup_map_update k v rest

/-- Updating one key leaves other keys' lookups unchanged (list form). -/
theorem cacheLookup_map_update_ne [DecidableEq K] (k k' : K) (v : V)
    (h : k' ≠ k) :
    ∀ l : List (K × V),
      cacheLookup k' (l.map (fun e => if e.1 = k then (e.1, v) else e)) =
        cacheLookup k' l
  | [] => rfl
  | (k1, v1) :: rest => by
    show cacheLookup k' ((if k1 = k then (k1, v) else (k1, v1)) ::
        rest.map (fun e => if e.1 = k then (e.1, v) else e)) =
      cacheLookup k' ((k1, v1) :: rest)
    by_cases he : k1 = k
    · have hk : ¬ (k1 = k') := by rw [he]; exact fun hc => h hc.symm
      rw [if_pos he]
      simp only [cacheLookup]
      rw [if_neg hk, if_neg hk]
      exact cacheLookup_map_update_ne k k' v h rest
    · rw [if_neg he]
      simp only [cacheLookup]
      by_cases he' : k1 = k'
      · rw [if_pos he', if_pos he']
      · rw [if_neg he', if_neg he']
        exact cacheLookup_map_update_ne k k' v h rest

/-- Updating a stored key rewrites exactly that key's value. -/
theorem Cache.find?_update [DecidableEq K] (c : Cache K V) (k : K) (v : V) :
    (c.update k v).find? k = (c.find? k).map (fun _ => v) :=
  cacheLookup_map_update k v c.entries

/-- Updating one key leaves every other key's lookup unchanged. -/
theorem Cache.find?_update_ne [DecidableEq K] (c : Cache K V) (k k' : K)
    (v : V) (h : k' ≠ k) :
    (c.update k v).find? k' = c.find? k' :=
  cacheLookup_map_update_ne k k' v h c.entries

/-- Updating a key never changes the key population (list form). -/
theorem cacheKeys_map_update [DecidableEq K] (k : K) (v : V) :
    ∀ l : List (K × V),
      (l.map (fun e => if e.1 = k then (e.1, v) else e)).map Prod.fst =
        l.map Prod.fst
  | [] => rfl
  | (k1, v1) :: rest => by
    show ((if k1 = k then (k1, v) else (k1, v1)) ::
        rest.map (fun e => if e.1 = k then (e.1, v) else e)).map Prod.fst =
      k1 :: rest.map Prod.fst
    by_cases he : k1 = k
    · rw [if_pos he]
      simp only [List.map_cons]
      rw [cacheKeys_map_update k v rest]
    · rw [if_neg he]
      simp only [List.map_cons]
      rw [cacheKeys_map_update k v rest]

/-- Updating a key never changes the key population. -/
theorem Cache.keys_update [DecidableEq K] (c : Cache K V) (k : K) (v : V) :
    (c.update k v).keys = c.keys :=
  cacheKeys_map_update k v c.entries

/-- C4: GetByFunction and GetByFunctionUID return, for a present entry,
a value copy of the stored record with its last-access time refreshed to
now; the refresh is persisted on the stored entry and nothing else in
any index changes; for an absent key or UID they return a NotFound
error and leave the cache untouched. -/
theorem getByFunction_getByFunctionUID_copy_refresh_notfound
    (fsc : FunctionServiceCache) (m : ObjectMeta) (uid : GoString)
    (now : GoTime) :
    (∀ fsvc, fsc.byFunction.find? (CacheKeyURFromMeta m) = some fsvc →
      ∃ r fsc', fsc.GetByFunction m now = (.ok r, fsc') ∧
        r = { fsvc with atime := now } ∧
        fsc'.byFunction.find? (CacheKeyURFromMeta m) = some r ∧
        (∀ k', k' ≠ CacheKeyURFromMeta m →
          fsc'.byFunction.find? k' = fsc.byFunction.find? k') ∧
        fsc'.byAddress = fsc.byAddress ∧
        fsc'.byFunctionUID = fsc.byFunctionUID) ∧
    (fsc.byFunction.find? (CacheKeyURFromMeta m) = none →
      ∃ e, fsc.GetByFunction m now = (.error e, fsc) ∧
        IsNotFoundError e = true) ∧
    (∀ meta fsvc, fsc.byFunctionUID.find? uid = some meta →
      fsc.byFunction.find? (CacheKeyURFromMeta meta) = some fsvc →
      ∃ r fsc', fsc.GetByFunctionUID uid now = (.ok r, fsc') ∧
        r = { fsvc with atime := now } ∧
        fsc'.byFunction.find? (CacheKeyURFromMeta meta) = some r ∧
        (∀ k', k' ≠ CacheKeyURFromMeta meta →
          fsc'.byFunction.find? k' = fsc.byFunction.find? k') ∧
        fsc'.byAddress = fsc.byAddress ∧
        fsc'.byFunctionUID = fsc.byFunctionUID) ∧
    (fsc.byFunctionUID.find? uid = none →
      ∃ e, fsc.GetByFunctionUID uid now = (.error e, fsc) ∧
        IsNotFoundError e = true) ∧
    (∀ meta, fsc.byFunctionUID.find? uid = some meta →
      fsc.byFunction.find? (CacheKeyURFromMeta meta) = none →
      ∃ e, fsc.GetByFunctionUID uid now = (.error e, fsc) ∧
        IsNotFoundError e = true) := by
  refine ⟨?_, ?_, ?_, ?_, ?_⟩
  · intro fsvc h
    have hget : fsc.GetByFunction m now =
        (.ok { fsvc with atime := now },
          { fsc with byFunction := (fsc.byFunction.update (CacheKeyURFromMeta m)
            ({ fsvc with atime := now })) }) := by
      unfold FunctionServiceCache.GetByFunction Cache.get
      dsimp only
      rw [h]
    refine ⟨_, _, hget, rfl, ?_, ?_, rfl, rfl⟩
    · show (fsc.byFunction.update (CacheKeyURFromMeta m)
        { fsvc with atime := now }).find? (CacheKeyURFromMeta m) =
        some { fsvc with atime := now }
      rw [Cache.find?_update, h]
      rfl
    · intro k' hk
      exact Cache.find?_update_ne fsc.byFunction (CacheKeyURFromMeta m) k' _ hk
  · intro h
    refine ⟨.notFound, ?_, rfl⟩
    unfold FunctionServiceCache.GetByFunction Cache.get
    dsimp only
    rw [h]
  · intro meta fsvc h1 h2
    have hget : fsc.GetByFunctionUID uid now =
        (.ok { fsvc with atime := now },
          { fsc with byFunction := (fsc.byFunction.update (CacheKeyURFromMeta meta)
            ({ fsvc with atime := now })) }) := by
      unfold FunctionServiceCache.GetByFunctionUID Cache.get
      dsimp only
      rw [h1]
      dsimp only
      rw [h2]
    refine ⟨_, _, hget, rfl, ?_, ?_, rfl, rfl⟩
    · show (fsc.byFunction.update (CacheKeyURFromMeta meta)
        { fsvc with atime := now }).find? (CacheKeyURFromMeta meta) =
        some { fsvc with atime := now }
      rw [Cache.find?_update, h2]
      rfl
    · intro k' hk
      exact Cache.find?_update_ne fsc.byFunction (CacheKeyURFromMeta meta) k' _ hk
  · intro h
    refine ⟨.notFound, ?_, rfl⟩
    unfold FunctionServiceCache.GetByFunctionUID Cache.get
    dsimp only
    rw [h]
  · intro meta h1 h2
    refine ⟨.notFound, ?_, rfl⟩
    unfold FunctionServiceCache.GetByFunctionUID Cache.get
    dsimp only
    rw [h1]
    dsimp only
    rw [h2]

/-- Witness for C4: a hit refreshing the Atime of the concrete cached
entry, and a miss on an unknown UID returning NotFound. -/
theorem getByFunction_getByFunctionUID_copy_refresh_notfound_witness :
    (∃ r fsc', fscA.GetByFunction m0 7 = (.ok r, fsc') ∧
        r = { fsvc0 with atime := 7 } ∧
        fsc'.byFunction.find? (CacheKeyURFromMeta m0) = some r ∧
        (∀ k', k' ≠ CacheKeyURFromMeta m0 →
          fsc'.byFunction.find? k' = fscA.byFunction.find? k') ∧
        fsc'.byAddress = fscA.byAddress ∧
        fsc'.byFunctionUID = fscA.byFunctionUID) ∧
    (∃ e, fscA.GetByFunctionUID (gs "zz") 7 = (.error e, fscA) ∧
        IsNotFoundError e = true) :=
  ⟨(getByFunction_getByFunctionUID_copy_refresh_notfound fscA m0 (gs "zz") 7).1
      fsvc0 (by decide),
    (getByFunction_getByFunctionUID_copy_refresh_notfound fscA m0 (gs "zz") 7).2.2.2.1
      (by decide)⟩

/-- C3: Add on an already-present function key never creates a second
live entry: when the by-function index already holds an entry for the
key and the by-address index maps that entry's address back to the same
key, Add touches the existing entry's last-access time, returns a copy
of the existing entry (read through the pointer after the touch) with
no error, leaves the key population of the by-function index unchanged,
and leaves the other two indices untouched. -/
theorem fsCache_Add_idempotent_on_collision (fsc : FunctionServiceCache)
    (fsvc existing : FuncSvc) (m' : ObjectMeta) (now : GoTime)
    (hKey : fsc.byFunction.find? (CacheKeyURFromMeta fsvc.function) = some existing)
    (hAddr : fsc.byAddress.find? existing.address = some m')
    (hk : CacheKeyURFromMeta m' = CacheKeyURFromMeta fsvc.function) :
    ∃ fsc', fsc.Add fsvc now = ((some { existing with atime := now }, none), fsc') ∧
      fsc'.byFunction.keys = fsc.byFunction.keys ∧
      fsc'.byFunction.find? (CacheKeyURFromMeta fsvc.function) =
        some { existing with atime := now } ∧
      (∀ k', k' ≠ CacheKeyURFromMeta fsvc.function →
        fsc'.byFunction.find? k' = fsc.byFunction.find? k') ∧
      fsc'.byAddress = fsc.byAddress ∧
      fsc'.byFunctionUID = fsc.byFunctionUID := by
  have hfind : (fsc.byFunction.update (CacheKeyURFromMeta fsvc.function)
      ({ existing with atime := now })).find? (CacheKeyURFromMeta fsvc.function) =
      some { existing with atime := now } := by
    rw [Cache.find?_update, hKey]
    rfl
  have htouch : fsc._touchByAddress existing.address now =
      (none, { fsc with byFunction := (fsc.byFunction.update
        (CacheKeyURFromMeta fsvc.function) ({ existing with atime := now })) }) := by
    unfold FunctionServiceCache._touchByAddress Cache.get
    rw [hAddr]
    dsimp only
    rw [hk, hKey]
  have hset : fsc.byFunction.set (CacheKeyURFromMeta fsvc.function) fsvc =
      ((existing, some .nameExists), fsc.byFunction) := by
    unfold Cache.set
    rw [hKey]
  have hadd : fsc.Add fsvc now =
      ((some { existing with atime := now }, none),
        { fsc with byFunction := (fsc.byFunction.update
          (CacheKeyURFromMeta fsvc.function) ({ existing with atime := now })) }) := by
    unfold FunctionServiceCache.Add FunctionServiceCache.TouchByAddress
    dsimp only
    rw [hset]
    dsimp only
    rw [htouch]
    dsimp only
    rw [hfind]
    rfl
  refine ⟨_, hadd, Cache.keys_update _ _ _, hfind, ?_, rfl, rfl⟩
  intro k' hk'
  exact Cache.find?_update_ne fsc.byFunction (CacheKeyURFromMeta fsvc.function) k' _ hk'

/-- Witness for C3: re-adding the cached entry (same function key, new
object name) returns the first entry with refreshed Atime and creates no
second entry. -/
theorem fsCache_Add_idempotent_on_collision_witness :
    fscA.byFunction.find? (CacheKeyURFromMeta fsvc0.function) = some fsvc0 ∧
    fscA.byAddress.find? fsvc0.address = some m0 ∧
    CacheKeyURFromMeta m0 = CacheKeyURFromMeta fsvc0.function ∧
    (∃ fsc', fscA.Add { fsvc0 with name := gs "obj2" } 9 =
        ((some { fsvc0 with atime := 9 }, none), fsc') ∧
      fsc'.byFunction.keys = fscA.byFunction.keys ∧
      fsc'.byFunction.find? (CacheKeyURFromMeta fsvc0.function) =
        some { fsvc0 with atime := 9 } ∧
      (∀ k', k' ≠ CacheKeyURFromMeta fsvc0.function →
        fsc'.byFunction.find? k' = fscA.byFunction.find? k') ∧
      fsc'.byAddress = fscA.byAddress ∧
      fsc'.byFunctionUID = fscA.byFunctionUID) :=
  ⟨by decide, by decide, by decide,
    fsCache_Add_idempotent_on_collision fscA { fsvc0 with name := gs "obj2" }
      fsvc0 m0 9 (by decide) (by decide) (by decide)⟩

/-- C2: fnCreate calls the cluster API in the order service, deployment,
HPA; a failure at any step returns the underlying error wrapped with the
operation and object name, leaves the cache untouched, does not insert a
FuncSvc, and dispatches cleanup as a background task — fnCreate's result
and trace never depend on the cleanup oracle; on success the trace is
exactly the three creations (in order) followed by the cache insert. -/
theorem fnCreate_order_error_cleanup (env : ClusterEnv)
    (fsc : FunctionServiceCache) (fn : Function) (now : GoTime)
    (objName : GoString) (hobj : Container.getObjName fn = some objName) :
    (∀ e, env.createOrGetSvc fn objName
        (env.getFunctionNS fn.metadata.namespace') = .error e →
      Container.fnCreate env fsc fn now =
        some (.error (.ctx "error creating service" objName e),
          [.createOrGetSvc (env.getFunctionNS fn.metadata.namespace') objName,
            .goCleanupFunc (env.getFunctionNS fn.metadata.namespace') objName],
          fsc)) ∧
    (∀ svc e, env.createOrGetSvc fn objName
        (env.getFunctionNS fn.metadata.namespace') = .ok svc →
      env.createOrGetDeployment fn objName
        (env.getFunctionNS fn.metadata.namespace') = .error e →
      Container.fnCreate env fsc fn now =
        some (.error (.ctx "error creating deployment" objName e),
          [.createOrGetSvc (env.getFunctionNS fn.metadata.namespace') objName,
            .createOrGetDeployment (env.getFunctionNS fn.metadata.namespace') objName,
            .goCleanupFunc (env.getFunctionNS fn.metadata.namespace') objName],
          fsc)) ∧
    (∀ svc depl e, env.createOrGetSvc fn objName
        (env.getFunctionNS fn.metadata.namespace') = .ok svc →
      env.createOrGetDeployment fn objName
        (env.getFunctionNS fn.metadata.namespace') = .ok depl →
      env.createOrGetHpa fn objName = .error e →
      Container.fnCreate env fsc fn now =
        some (.error (.ctx "error creating HPA" objName e),
          [.createOrGetSvc (env.getFunctionNS fn.metadata.namespace') objName,
            .createOrGetDeployment (env.getFunctionNS fn.metadata.namespace') objName,
            .createOrGetHpa objName,
            .goCleanupFunc (env.getFunctionNS fn.metadata.namespace') objName],
          fsc)) ∧
    (∀ svc depl hpa, env.createOrGetSvc fn objName
        (env.getFunctionNS fn.metadata.namespace') = .ok svc →
      env.createOrGetDeployment fn objName
        (env.getFunctionNS fn.metadata.namespace') = .ok depl →
      env.createOrGetHpa fn objName = .ok hpa →
      ∃ r fsc', Container.fnCreate env fsc fn now =
        some (r,
          [.createOrGetSvc (env.getFunctionNS fn.metadata.namespace') objName,
            .createOrGetDeployment (env.getFunctionNS fn.metadata.namespace') objName,
            .createOrGetHpa objName, .cacheAdd],
          fsc')) ∧
    (∀ r, Container.fnCreate { env with cleanupContainer := r } fsc fn now =
      Container.fnCreate env fsc fn now) := by
  refine ⟨?_, ?_, ?_, ?_, ?_⟩
  · intro e hsvc
    unfold Container.fnCreate
    rw [hobj]
    dsimp only
    rw [hsvc]
  · intro svc e hsvc hdepl
    unfold Container.fnCreate
    rw [hobj]
    dsimp only
    rw [hsvc]
    dsimp only
    rw [hdepl]
  · intro svc depl e hsvc hdepl hhpa
    unfold Container.fnCreate
    rw [hobj]
    dsimp only
    rw [hsvc]
    dsimp only
    rw [hdepl]
    dsimp only
    rw [hhpa]
  · intro svc depl hpa hsvc hdepl hhpa
    unfold Container.fnCreate
    rw [hobj]
    dsimp only
    rw [hsvc]
    dsimp only
    rw [hdepl]
    dsimp only
    rw [hhpa]
    dsimp only
    rcases hAdd : fsc.Add
        { name := objName
          function := fn.metadata
          address := svc.name ++ gs "." ++ svc.namespace'
          kubernetesObjects := [
            ⟨gs "deployment", depl.name, depl.namespace', depl.apiVersion,
              depl.resourceVersion, depl.uid⟩,
            ⟨gs "service", svc.name, svc.namespace', svc.apiVersion,
              svc.resourceVersion, svc.uid⟩,
            ⟨gs "horizontalpodautoscaler", hpa.name, hpa.namespace',
              hpa.apiVersion, hpa.resourceVersion, hpa.uid⟩]
          executor := .container } now with ⟨⟨p, e1⟩, fsc2⟩
    cases e1 with
    | none => exact ⟨_, _, rfl⟩
    | some e => exact ⟨_, _, rfl⟩
  · intro r
    rfl

/-- Witness for C2: a failing service creation wraps the error, emits
the service call plus the async cleanup dispatch, and leaves the cache
empty; a fully successful run emits exactly service, deployment, HPA,
cache-insert in that order. -/
theorem fnCreate_order_error_cleanup_witness :
    Container.getObjName fn1 = some objName1 ∧
    Container.fnCreate envSvcFail fscEmpty fn1 3 =
      some (.error (.ctx "error creating service" objName1 (.other "boom")),
        [.createOrGetSvc (gs "fission") objName1,
          .goCleanupFunc (gs "fission") objName1], fscEmpty) ∧
    (∃ r fsc', Container.fnCreate envStd fscEmpty fn1 3 =
      some (r, [.createOrGetSvc (gs "fission") objName1,
        .createOrGetDeployment (gs "fission") objName1,
        .createOrGetHpa objName1, .cacheAdd], fsc')) :=
  ⟨by decide,
    (fnCreate_order_error_cleanup envSvcFail fscEmpty fn1 3 objName1 (by decide)).1
      (.other "boom") rfl,
    (fnCreate_order_error_cleanup envStd fscEmpty fn1 3 objName1 (by decide)).2.2.2.1
      ⟨objName1, gs "fission", gs "v1", gs "1", gs "svcuid"⟩
      ⟨objName1, gs "fission", gs "apps/v1", gs "1", gs "depuid"⟩
      ⟨objName1, gs "default", gs "autoscaling/v2", gs "1", gs "hpauid"⟩
      rfl rfl rfl⟩

/-- Go's strings.Split never returns an empty slice. -/
theorem goSplitDot_length_ne_zero : ∀ s : GoString, (goSplitDot s).length ≠ 0
  | [] => by simp [goSplitDot]
  | c :: rest => by
    unfold goSplitDot
    by_cases h : c = '.'
    · simp [h]
    · rw [if_neg h]
      cases hs : goSplitDot rest with
      | nil => simp
      | cons a as => simp

/-- Characterisation of the per-object check inside IsValid: services
must exist, deployments must exist with an available replica, all other
kinds pass unchecked. -/
theorem isValidObj_iff (env : ClusterEnv) (obj : ObjectReference) :
    Container.isValidObj env obj = true ↔
      ((goToLower obj.kind = gs "service" →
        ∃ s, env.svcListerGet obj.namespace' obj.name = .ok s) ∧
       (goToLower obj.kind = gs "deployment" →
        ∃ d, env.deplListerGet obj.namespace' obj.name = .ok d ∧
          1 ≤ d.statusAvailableReplicas)) := by
  unfold Container.isValidObj
  by_cases hs : goToLower obj.kind = gs "service"
  · have hd : ¬ (goToLower obj.kind = gs "deployment") := by
      rw [hs]
      decide
    rw [if_pos hs]
    cases hsvc : env.svcListerGet obj.namespace' obj.name with
    | error e => simp [hsvc, hs, hd]
    | ok s =>
      simp only [hsvc, hs, hd]
      simp only [true_iff, iff_true]
      refine ⟨fun _ => ⟨s, rfl⟩, fun hcon => absurd hcon (by decide)⟩
  · rw [if_neg hs]
    by_cases hd : goToLower obj.kind = gs "deployment"
    · rw [if_pos hd]
      cases hdep : env.deplListerGet obj.namespace' obj.name with
      | error e => simp [hdep, hs, hd]
      | ok d =>
        simp only [hdep, hs, hd]
        simp only [decide_eq_true_eq, Except.ok.injEq]
        constructor
        · intro hrep
          exact ⟨fun hcon => absurd hcon (by decide), fun _ => ⟨d, rfl, hrep⟩⟩
        · intro hpair
          obtain ⟨d2, hd2, hrep2⟩ := hpair.2 trivial
          cases hd2
          exact hrep2
    · rw [if_neg hd]
      simp [hs, hd]

/-- C7 (amended): IsValid returns true exactly when the entry has at
least one object reference, every referenced Service still exists, and
every referenced Deployment exists with at least one available replica;
references of any other kind — in particular the HPA — are not
verified. -/
theorem IsValid_checks_services_and_deployments (env : ClusterEnv)
    (fsvc : FuncSvc) :
    Container.IsValid env fsvc = true ↔
      (fsvc.kubernetesObjects ≠ [] ∧
       ∀ obj ∈ fsvc.kubernetesObjects,
         (goToLower obj.kind = gs "service" →
           ∃ s, env.svcListerGet obj.namespace' obj.name = .ok s) ∧
         (goToLower obj.kind = gs "deployment" →
           ∃ d, env.deplListerGet obj.namespace' obj.name = .ok d ∧
             1 ≤ d.statusAvailableReplicas)) := by
  unfold Container.IsValid
  rw [if_neg (goSplitDot_length_ne_zero fsvc.address)]
  by_cases hlen : fsvc.kubernetesObjects.length = 0
  · rw [if_pos hlen]
    have : fsvc.kubernetesObjects = [] := List.length_eq_zero.mp hlen
    simp [this]
  · rw [if_neg hlen]
    simp only [List.all_eq_true]
    constructor
    · intro h
      refine ⟨fun hnil => hlen (by rw [hnil]; rfl), fun obj hm => ?_⟩
      exact (isValidObj_iff env obj).mp (h obj hm)
    · intro h obj hm
      exact (isValidObj_iff env obj).mpr (h.2 obj hm)

/-- Counterexample to C7 as stated: with the referenced HPA object
deleted (and service and deployment healthy), IsValid still returns
true, although a referenced cluster object no longer exists. -/
theorem IsValid_missing_hpa_counterexample :
    Container.IsValid envHpaGone fsvcFull = true ∧
    hpaRef1 ∈ fsvcFull.kubernetesObjects ∧
    specObjectExists envHpaGone hpaRef1 = false :=
  ⟨by decide, by decide, by decide⟩

/-- C8 (code bug): on a LISTOLD request whose by-function lookup fails,
the worker's loop body executes `return` instead of replying — the step
produces no response (the requesting caller blocks forever) and the
worker is dead, so a later TOUCH request is never answered either; yet
the same TOUCH request would have received exactly one reply from a
live worker. -/
theorem listold_lookup_failure_kills_worker :
    fscBad.serviceStep { requestType := .LISTOLD, age := 5 } 100 = none ∧
    fscBad.serviceRun 100 [{ requestType := .LISTOLD, age := 5 },
      { requestType := .TOUCH, address := gs "a.b" }] = ([none, none], none) ∧
    (∃ resp fsc', fscBad.serviceStep
      { requestType := .TOUCH, address := gs "a.b" } 100 = some (resp, fsc')) :=
  ⟨by decide, by decide, ⟨{ error := some .notFound }, fscBad, by decide⟩⟩

/-- A listed entry that is Container-tagged, resolvable, idle at least
its reap timeout, with a deployment reference and more replicas than
MinScale, makes reapOne emit the scale-down call to exactly MinScale. -/
theorem reapOne_scales (env : ClusterEnv) (now : GoTime) (fsvc : FuncSvc)
    (fn : Function) (deployObj : ObjectReference) (currentDeploy : Deployment)
    (hex : fsvc.executor = .container)
    (hfn : env.functionsGet fsvc.function.namespace' fsvc.function.name = .ok fn)
    (htime : (match fn.spec.idleTimeout with
      | some t => t
      | none => env.defaultIdlePodReapTime) ≤ now - fsvc.atime)
    (hdep : getDeploymentObj fsvc.kubernetesObjects = some deployObj)
    (hget : env.getDeployment deployObj.namespace' deployObj.name = .ok currentDeploy)
    (hrep : fn.spec.invokeStrategy.executionStrategy.minScale <
      currentDeploy.specReplicas) :
    Container.reapOne env now fsvc = some (.scaleDeployment deployObj.namespace'
      deployObj.name fn.spec.invokeStrategy.executionStrategy.minScale) := by
  unfold Container.reapOne
  rw [if_neg (by rw [hex]; simp)]
  rw [hfn]
  dsimp only
  rw [if_neg (not_lt.mpr htime)]
  rw [hdep]
  dsimp only
  rw [hget]
  dsimp only
  rw [if_neg (not_le.mpr hrep)]

/-- A listed entry whose deployment already runs at most MinScale
replicas triggers no scaling API call. -/
theorem reapOne_at_minscale_no_call (env : ClusterEnv) (now : GoTime)
    (fsvc : FuncSvc) (fn : Function) (deployObj : ObjectReference)
    (currentDeploy : Deployment)
    (hex : fsvc.executor = .container)
    (hfn : env.functionsGet fsvc.function.namespace' fsvc.function.name = .ok fn)
    (hdep : getDeploymentObj fsvc.kubernetesObjects = some deployObj)
    (hget : env.getDeployment deployObj.namespace' deployObj.name = .ok currentDeploy)
    (hrep : currentDeploy.specReplicas ≤
      fn.spec.invokeStrategy.executionStrategy.minScale) :
    Container.reapOne env now fsvc = none := by
  unfold Container.reapOne
  rw [if_neg (by rw [hex]; simp)]
  rw [hfn]
  dsimp only
  by_cases htime : now - fsvc.atime < (match fn.spec.idleTimeout with
    | some t => t
    | none => env.defaultIdlePodReapTime)
  · rw [if_pos htime]
  · rw [if_neg htime]
    rw [hdep]
    dsimp only
    rw [hget]
    dsimp only
    rw [if_pos hrep]

/-- Every event reapOne can produce is a scale-down API call. -/
theorem reapOne_only_scales (env : ClusterEnv) (now : GoTime) (fsvc : FuncSvc)
    (e : CEvent) (h : Container.reapOne env now fsvc = some e) :
    ∃ ns n r, e = .scaleDeployment ns n r := by
  unfold Container.reapOne at h
  by_cases h1 : fsvc.executor ≠ .container
  · rw [if_pos h1] at h
    cases h
  · rw [if_neg h1] at h
    cases h2 : env.functionsGet fsvc.function.namespace' fsvc.function.name with
    | error e2 =>
      rw [h2] at h
      cases h
    | ok fn2 =>
      rw [h2] at h
      dsimp only at h
      by_cases h3 : now - fsvc.atime < (match fn2.spec.idleTimeout with
        | some t => t
        | none => env.defaultIdlePodReapTime)
      · rw [if_pos h3] at h
        cases h
      · rw [if_neg h3] at h
        cases h4 : getDeploymentObj fsvc.kubernetesObjects with
        | none =>
          rw [h4] at h
          cases h
        | some dobj =>
          rw [h4] at h
          dsimp only at h
          cases h5 : env.getDeployment dobj.namespace' dobj.name with
          | error e5 =>
            rw [h5] at h
            cases h
          | ok dd =>
            rw [h5] at h
            dsimp only at h
            by_cases h6 : dd.specReplicas ≤
                fn2.spec.invokeStrategy.executionStrategy.minScale
            · rw [if_pos h6] at h
              cases h
            · rw [if_neg h6] at h
              exact ⟨_, _, _, (Option.some.inj h).symm⟩

/-- C5 (amended): in one reaper pass, every entry surviving the
five-second ListOld pre-filter that is Container-tagged, resolvable,
idle at least its idle timeout (per-function override, else the
controller default) and whose deployment runs more replicas than
MinScale gets exactly the scale-to-MinScale API call; an entry already
at or below MinScale produces no call; the pass emits nothing but
scale-down calls and returns the cache unchanged — no entry is
evicted. -/
theorem doIdleObjectReaper_scales_idle_entries (env : ClusterEnv)
    (fsc : FunctionServiceCache) (now : GoTime) (objs : List FuncSvc)
    (fsvc : FuncSvc) (fn : Function)
    (hlist : fsc.listOldLoop 5 now fsc.byFunctionUID.values = some objs)
    (hmem : fsvc ∈ objs)
    (hex : fsvc.executor = .container)
    (hfn : env.functionsGet fsvc.function.namespace' fsvc.function.name = .ok fn) :
    ∃ events, Container.doIdleObjectReaper env fsc now = some (events, fsc) ∧
      (∀ deployObj currentDeploy,
        getDeploymentObj fsvc.kubernetesObjects = some deployObj →
        env.getDeployment deployObj.namespace' deployObj.name = .ok currentDeploy →
        (match fn.spec.idleTimeout with
          | some t => t
          | none => env.defaultIdlePodReapTime) ≤ now - fsvc.atime →
        fn.spec.invokeStrategy.executionStrategy.minScale <
          currentDeploy.specReplicas →
        CEvent.scaleDeployment deployObj.namespace' deployObj.name
          fn.spec.invokeStrategy.executionStrategy.minScale ∈ events) ∧
      (∀ deployObj currentDeploy,
        getDeploymentObj fsvc.kubernetesObjects = some deployObj →
        env.getDeployment deployObj.namespace' deployObj.name = .ok currentDeploy →
        currentDeploy.specReplicas ≤
          fn.spec.invokeStrategy.executionStrategy.minScale →
        Container.reapOne env now fsvc = none) ∧
      (∀ e ∈ events, ∃ ns n r, e = CEvent.scaleDeployment ns n r) := by
  have hrun : Container.doIdleObjectReaper env fsc now =
      some (objs.filterMap (Container.reapOne env now), fsc) := by
    unfold Container.doIdleObjectReaper FunctionServiceCache.ListOld
      FunctionServiceCache.serviceStep
    dsimp only
    rw [hlist]
  refine ⟨_, hrun, ?_, ?_, ?_⟩
  · intro dobj dd h1 h2 h3 h4
    exact List.mem_filterMap.mpr
      ⟨fsvc, hmem, reapOne_scales env now fsvc fn dobj dd hex hfn h3 h1 h2 h4⟩
  · intro dobj dd h1 h2 h3
    exact reapOne_at_minscale_no_call env now fsvc fn dobj dd hex hfn h1 h2 h3
  · intro e he
    obtain ⟨a, _, hra⟩ := List.mem_filterMap.mp he
    exact reapOne_only_scales env now a e hra

/-- Counterexample to C5 as stated: fnIdle's idle timeout is one second
and its entry has been idle for three seconds with two replicas above
MinScale zero, yet the reaper pass performs no scale-down, because the
ListOld pre-filter only surfaces entries idle for more than five
seconds. -/
theorem doIdleObjectReaper_short_timeout_counterexample :
    fsvcIdle.executor = .container ∧
    envReap.functionsGet fsvcIdle.function.namespace' fsvcIdle.function.name =
      .ok fnIdle ∧
    fnIdle.spec.idleTimeout = some 1 ∧
    (100 : GoTime) - fsvcIdle.atime > 1 ∧
    getDeploymentObj fsvcIdle.kubernetesObjects = some deplRefIdle ∧
    envReap.getDeployment deplRefIdle.namespace' deplRefIdle.name =
      .ok ⟨2, 2⟩ ∧
    fnIdle.spec.invokeStrategy.executionStrategy.minScale < 2 ∧
    fscIdle.byFunctionUID.values = [mIdle] ∧
    fscIdle.byFunction.find? (CacheKeyURFromMeta mIdle) = some fsvcIdle ∧
    Container.doIdleObjectReaper envReap fscIdle 100 = some ([], fscIdle) :=
  ⟨by decide, rfl, by decide, by decide, by decide, rfl,
    by decide, by decide, by decide, rfl⟩

/-- Witness for the amended C5 at time 200: the same entry, now past
the five-second pre-filter, is scaled down to MinScale. -/
theorem doIdleObjectReaper_scales_idle_entries_witness :
    fscIdle.listOldLoop 5 200 fscIdle.byFunctionUID.values = some [fsvcIdle] ∧
    fsvcIdle ∈ [fsvcIdle] ∧ fsvcIdle.executor = .container ∧
    envReap.functionsGet fsvcIdle.function.namespace' fsvcIdle.function.name =
      .ok fnIdle ∧
    (∃ events, Container.doIdleObjectReaper envReap fscIdle 200 =
        some (events, fscIdle) ∧
      (∀ deployObj currentDeploy,
        getDeploymentObj fsvcIdle.kubernetesObjects = some deployObj →
        envReap.getDeployment deployObj.namespace' deployObj.name =
          .ok currentDeploy →
        (match fnIdle.spec.idleTimeout with
          | some t => t
          | none => envReap.defaultIdlePodReapTime) ≤ 200 - fsvcIdle.atime →
        fnIdle.spec.invokeStrategy.executionStrategy.minScale <
          currentDeploy.specReplicas →
        CEvent.scaleDeployment deployObj.namespace' deployObj.name
          fnIdle.spec.invokeStrategy.executionStrategy.minScale ∈ events) ∧
      (∀ deployObj currentDeploy,
        getDeploymentObj fsvcIdle.kubernetesObjects = some deployObj →
        envReap.getDeployment deployObj.namespace' deployObj.name =
          .ok currentDeploy →
        currentDeploy.specReplicas ≤
          fnIdle.spec.invokeStrategy.executionStrategy.minScale →
        Container.reapOne envReap 200 fsvcIdle = none) ∧
      (∀ e ∈ events, ∃ ns n r, e = CEvent.scaleDeployment ns n r)) :=
  ⟨by decide, by decide, by decide, rfl,
    doIdleObjectReaper_scales_idle_entries envReap fscIdle 200 [fsvcIdle]
      fsvcIdle fnIdle (by decide) (by decide) (by decide) rfl⟩

/-- Whatever path the invoke-strategy section takes, every event it
emits is an HPA read or an HPA update — never a deployment operation. -/
theorem updateFnHpa_events (env : ClusterEnv) (fsc : FunctionServiceCache)
    (oldFn newFn : Function) (now : GoTime) (r : Except GoError Unit)
    (ev : List CEvent) (fsc' : FunctionServiceCache)
    (h : Container.updateFnHpa env fsc oldFn newFn now = (r, ev, fsc')) :
    ∀ e ∈ ev, (∃ ns n, e = CEvent.getHpa ns n) ∨ ∃ h4, e = CEvent.updateHpa h4 := by
  unfold Container.updateFnHpa at h
  by_cases hIS : oldFn.spec.invokeStrategy = newFn.spec.invokeStrategy
  · rw [if_pos hIS] at h
    simp only [Prod.mk.injEq] at h
    obtain ⟨rfl, rfl, rfl⟩ := h
    intro e he
    cases he
  · rw [if_neg hIS] at h
    dsimp only at h
    rcases hg : fsc.GetByFunctionUID newFn.metadata.uid now with ⟨rg, fscg⟩
    rw [hg] at h
    cases rg with
    | error e0 =>
      dsimp only at h
      simp only [Prod.mk.injEq] at h
      obtain ⟨rfl, rfl, rfl⟩ := h
      intro e he
      cases he
    | ok fsvcg =>
      dsimp only at h
      cases hh : env.getHpa (env.getFunctionNS newFn.metadata.namespace')
          fsvcg.name with
      | error e0 =>
        rw [hh] at h
        dsimp only at h
        simp only [Prod.mk.injEq] at h
        obtain ⟨rfl, rfl, rfl⟩ := h
        intro e he
        simp only [List.mem_singleton] at he
        exact Or.inl ⟨_, _, he⟩
      | ok hpa =>
        rw [hh] at h
        dsimp only at h
        rcases hs : applyStrategyToHpa oldFn.spec.invokeStrategy.executionStrategy
            newFn.spec.invokeStrategy.executionStrategy hpa with ⟨h4, b⟩
        rw [hs] at h
        cases b with
        | false =>
          have hbf : ¬ (((h4, false) : HorizontalPodAutoscaler × Bool).2 = true) := by
            simp
          rw [if_neg hbf] at h
          simp only [Prod.mk.injEq] at h
          obtain ⟨rfl, rfl, rfl⟩ := h
          intro e he
          simp only [List.mem_singleton] at he
          exact Or.inl ⟨_, _, he⟩
        | true =>
          have hbt : (((h4, true) : HorizontalPodAutoscaler × Bool).2 = true) := by
            simp
          rw [if_pos hbt] at h
          cases hu : env.updateHpa h4 with
          | error e0 =>
            rw [hu] at h
            simp only [Prod.mk.injEq] at h
            obtain ⟨rfl, rfl, rfl⟩ := h
            intro e he
            rcases List.mem_cons.mp he with rfl | he2
            · exact Or.inl ⟨_, _, rfl⟩
            · simp only [List.mem_singleton] at he2
              exact Or.inr ⟨_, he2⟩
          | ok u =>
            rw [hu] at h
            simp only [Prod.mk.injEq] at h
            obtain ⟨rfl, rfl, rfl⟩ := h
            intro e he
            rcases List.mem_cons.mp he with rfl | he2
            · exact Or.inl ⟨_, _, rfl⟩
            · simp only [List.mem_singleton] at he2
              exact Or.inr ⟨_, he2⟩

/-- C6: a function update between two Container-typed revisions that
leaves secrets, config maps and the pod spec unchanged emits only HPA
operations — an HPA read and possibly one HPA update — and in
particular never reads, patches or rolls the Deployment. -/
theorem updateFunction_autoscaling_only_patches_hpa (env : ClusterEnv)
    (fsc : FunctionServiceCache) (oldFn newFn : Function) (now : GoTime)
    (hrv : oldFn.metadata.resourceVersion ≠ newFn.metadata.resourceVersion)
    (hold : oldFn.spec.invokeStrategy.executionStrategy.executorType = .container)
    (hnew : newFn.spec.invokeStrategy.executionStrategy.executorType = .container)
    (hsec : oldFn.spec.secrets = newFn.spec.secrets)
    (hcm : oldFn.spec.configMaps = newFn.spec.configMaps)
    (hps : oldFn.spec.podSpec = newFn.spec.podSpec) :
    ∃ r ev fsc', Container.updateFunction env fsc oldFn newFn now =
      some (r, ev, fsc') ∧
      ∀ e ∈ ev, (∃ ns n, e = CEvent.getHpa ns n) ∨
        ∃ h4, e = CEvent.updateHpa h4 := by
  have h2 : ¬ (newFn.spec.invokeStrategy.executionStrategy.executorType ≠
      ExecutorType.container ∧
      oldFn.spec.invokeStrategy.executionStrategy.executorType ≠
      ExecutorType.container) := fun hc => hc.1 hnew
  have h3 : ¬ (newFn.spec.invokeStrategy.executionStrategy.executorType ≠
      ExecutorType.container ∧
      oldFn.spec.invokeStrategy.executionStrategy.executorType =
      ExecutorType.container) := fun hc => hc.1 hnew
  have h4 : ¬ (oldFn.spec.invokeStrategy.executionStrategy.executorType ≠
      ExecutorType.container ∧
      newFn.spec.invokeStrategy.executionStrategy.executorType =
      ExecutorType.container) := fun hc => hc.1 hold
  unfold Container.updateFunction
  rw [if_neg hrv]
  dsimp only
  rw [if_neg h2, if_neg h3, if_neg h4]
  rcases hU : Container.updateFnHpa env fsc oldFn newFn now with ⟨r1, ev1, fsc1⟩
  have hev := updateFnHpa_events env fsc oldFn newFn now r1 ev1 fsc1 hU
  cases r1 with
  | error e0 => exact ⟨_, _, _, rfl, hev⟩
  | ok u =>
    have hdc : (decide (oldFn.spec.secrets ≠ newFn.spec.secrets) ||
        decide (oldFn.spec.configMaps ≠ newFn.spec.configMaps) ||
        decide (oldFn.spec.podSpec ≠ newFn.spec.podSpec)) = false := by
      simp [hsec, hcm, hps]
    have hfb : ¬ ((false : Bool) = true) := by decide
    dsimp only
    rw [hdc, if_neg hfb]
    exact ⟨_, _, _, rfl, hev⟩

/-- Witness for C6: raising MaxScale from 5 to 10 with everything else
unchanged emits exactly one HPA read and one HPA update whose only
changed field is max-replicas; no deployment event occurs. -/
theorem updateFunction_autoscaling_only_patches_hpa_witness :
    oldF6.metadata.resourceVersion ≠ newF6.metadata.resourceVersion ∧
    (∃ r ev fsc', Container.updateFunction envStd fscA oldF6 newF6 7 =
      some (r, ev, fsc') ∧
      ∀ e ∈ ev, (∃ ns n, e = CEvent.getHpa ns n) ∨
        ∃ h4, e = CEvent.updateHpa h4) ∧
    (∃ fsc', Container.updateFunction envStd fscA oldF6 newF6 7 =
      some (.ok (), [CEvent.getHpa (gs "fission") (gs "obj"),
        CEvent.updateHpa ⟨some 1, 10, [], none⟩], fsc')) :=
  ⟨by decide,
    updateFunction_autoscaling_only_patches_hpa envStd fscA oldF6 newF6 7
      (by decide) (by decide) (by decide) (by decide) (by decide) (by decide),
    ⟨_, rfl⟩⟩

/-- fnCreate always returns (no panic) once the object name resolves,
and its trace contains each cluster-object creation call at most once. -/
theorem fnCreate_some_and_counts (env : ClusterEnv)
    (fsc : FunctionServiceCache) (fn : Function) (now : GoTime)
    (objName : GoString) (hobj : Container.getObjName fn = some objName) :
    ∃ res events fsc1,
      Container.fnCreate env fsc fn now = some (res, events, fsc1) ∧
      events.countP isCreateSvcEvent ≤ 1 ∧
      events.countP isCreateDeplEvent ≤ 1 ∧
      events.countP isCreateHpaEvent ≤ 1 := by
  unfold Container.fnCreate
  rw [hobj]
  dsimp only
  cases hsvc : env.createOrGetSvc fn objName
      (env.getFunctionNS fn.metadata.namespace') with
  | error e => exact ⟨_, _, _, rfl, by norm_num [List.countP_cons, isCreateSvcEvent, isCreateDeplEvent, isCreateHpaEvent], by norm_num [List.countP_cons, isCreateSvcEvent, isCreateDeplEvent, isCreateHpaEvent], by norm_num [List.countP_cons, isCreateSvcEvent, isCreateDeplEvent, isCreateHpaEvent]⟩
  | ok svc =>
    dsimp only
    cases hdepl : env.createOrGetDeployment fn objName
        (env.getFunctionNS fn.metadata.namespace') with
    | error e => exact ⟨_, _, _, rfl, by norm_num [List.countP_cons, isCreateSvcEvent, isCreateDeplEvent, isCreateHpaEvent], by norm_num [List.countP_cons, isCreateSvcEvent, isCreateDeplEvent, isCreateHpaEvent], by norm_num [List.countP_cons, isCreateSvcEvent, isCreateDeplEvent, isCreateHpaEvent]⟩
    | ok depl =>
      dsimp only
      cases hhpa : env.createOrGetHpa fn objName with
      | error e => exact ⟨_, _, _, rfl, by norm_num [List.countP_cons, isCreateSvcEvent, isCreateDeplEvent, isCreateHpaEvent], by norm_num [List.countP_cons, isCreateSvcEvent, isCreateDeplEvent, isCreateHpaEvent], by norm_num [List.countP_cons, isCreateSvcEvent, isCreateDeplEvent, isCreateHpaEvent]⟩
      | ok hpa =>
        dsimp only
        rcases hAdd : fsc.Add
            { name := objName
              function := fn.metadata
              address := svc.name ++ gs "." ++ svc.namespace'
              kubernetesObjects := [
                ⟨gs "deployment", depl.name, depl.namespace', depl.apiVersion,
                  depl.resourceVersion, depl.uid⟩,
                ⟨gs "service", svc.name, svc.namespace', svc.apiVersion,
                  svc.resourceVersion, svc.uid⟩,
                ⟨gs "horizontalpodautoscaler", hpa.name, hpa.namespace',
                  hpa.apiVersion, hpa.resourceVersion, hpa.uid⟩]
              executor := .container } now with ⟨⟨p, e1⟩, fsc2⟩
        cases e1 with
        | none => exact ⟨_, _, _, rfl, by norm_num [List.countP_cons, isCreateSvcEvent, isCreateDeplEvent, isCreateHpaEvent], by norm_num [List.countP_cons, isCreateSvcEvent, isCreateDeplEvent, isCreateHpaEvent], by norm_num [List.countP_cons, isCreateSvcEvent, isCreateDeplEvent, isCreateHpaEvent]⟩
        | some e => exact ⟨_, _, _, rfl, by norm_num [List.countP_cons, isCreateSvcEvent, isCreateDeplEvent, isCreateHpaEvent], by norm_num [List.countP_cons, isCreateSvcEvent, isCreateDeplEvent, isCreateHpaEvent], by norm_num [List.countP_cons, isCreateSvcEvent, isCreateDeplEvent, isCreateHpaEvent]⟩

/-- Once a published entry for the function's UID is in the cache, every
late (post-completion) caller's ableToCreate=false closure returns that
entry with refreshed Atime, and keeps it published. -/
theorem lateCalls_published (fn : Function) (now : GoTime) (meta : ObjectMeta)
    (pub : FuncSvc) :
    ∀ (n : Nat) (fsc1 : FunctionServiceCache),
      fsc1.byFunctionUID.find? fn.metadata.uid = some meta →
      fsc1.byFunction.find? (CacheKeyURFromMeta meta) = some pub →
      ∃ fsc2, Container.lateCalls fn fsc1 now n =
        (List.replicate n (.ok (some { pub with atime := now })), fsc2)
  | 0, fsc1, _, _ => ⟨fsc1, rfl⟩
  | n + 1, fsc1, h1, h2 => by
    have hget : fsc1.GetByFunctionUID fn.metadata.uid now =
        (.ok { pub with atime := now },
          { fsc1 with byFunction := (fsc1.byFunction.update
            (CacheKeyURFromMeta meta) ({ pub with atime := now })) }) := by
      unfold FunctionServiceCache.GetByFunctionUID Cache.get
      dsimp only
      rw [h1]
      dsimp only
      rw [h2]
    have h1' : ({ fsc1 with byFunction := (fsc1.byFunction.update
        (CacheKeyURFromMeta meta) ({ pub with atime := now })) } :
        FunctionServiceCache).byFunctionUID.find? fn.metadata.uid = some meta := h1
    have h2' : ({ fsc1 with byFunction := (fsc1.byFunction.update
        (CacheKeyURFromMeta meta) ({ pub with atime := now })) } :
        FunctionServiceCache).byFunction.find? (CacheKeyURFromMeta meta) =
        some { pub with atime := now } := by
      show (fsc1.byFunction.update (CacheKeyURFromMeta meta)
        ({ pub with atime := now })).find? (CacheKeyURFromMeta meta) = _
      rw [Cache.find?_update, h2]
      rfl
    obtain ⟨fsc3, hrest⟩ := lateCalls_published fn now meta
      { pub with atime := now } n _ h1' h2'
    refine ⟨fsc3, ?_⟩
    unfold Container.lateCalls
    rw [hget]
    dsimp only
    rw [hrest]
    rfl

/-- C1: one contention batch of createFunction callers for a Container
function runs the creation closure exactly once — the batch trace is the
single winner invocation's trace, in which each cluster-object creation
call occurs at most once; the winner and every concurrent waiter receive
the identical (FuncSvc, error) pair; and each post-completion caller
runs the closure with ableToCreate false, which reads the published
entry from the cache by function UID (returning it with refreshed
Atime) instead of creating anything. -/
theorem createFunctionBatch_single_flight (env : ClusterEnv)
    (fsc : FunctionServiceCache) (fn : Function) (now : GoTime)
    (nConcurrent nLate : Nat) (objName : GoString)
    (hex : fn.spec.invokeStrategy.executionStrategy.executorType = .container)
    (hobj : Container.getObjName fn = some objName) :
    ∃ res events fsc1 lateRes fsc2,
      Container.fnCreate env fsc fn now = some (res, events, fsc1) ∧
      Container.lateCalls fn fsc1 now nLate = (lateRes, fsc2) ∧
      Container.createFunctionBatch env fsc fn now nConcurrent nLate =
        some (List.replicate (1 + nConcurrent) (Container.wrapThrottled fn res)
          ++ lateRes, events, fsc2) ∧
      events.countP isCreateSvcEvent ≤ 1 ∧
      events.countP isCreateDeplEvent ≤ 1 ∧
      events.countP isCreateHpaEvent ≤ 1 ∧
      (∀ meta pub, fsc1.byFunctionUID.find? fn.metadata.uid = some meta →
        fsc1.byFunction.find? (CacheKeyURFromMeta meta) = some pub →
        lateRes = List.replicate nLate (.ok (some { pub with atime := now }))) := by
  obtain ⟨res, events, fsc1, hF, hc1, hc2, hc3⟩ :=
    fnCreate_some_and_counts env fsc fn now objName hobj
  rcases hL : Container.lateCalls fn fsc1 now nLate with ⟨lateRes, fsc2⟩
  have hnot : ¬ (fn.spec.invokeStrategy.executionStrategy.executorType ≠
      ExecutorType.container) := fun hc => hc hex
  refine ⟨res, events, fsc1, lateRes, fsc2, hF, hL, ?_, hc1, hc2, hc3, ?_⟩
  · unfold Container.createFunctionBatch
    rw [if_neg hnot, hF]
    dsimp only
    rw [hL]
  · intro meta pub h1 h2
    obtain ⟨fsc3, hrep⟩ := lateCalls_published fn now meta pub nLate fsc1 h1 h2
    rw [hL] at hrep
    exact (Prod.mk.injEq _ _ _ _).mp hrep |>.1

/-- Witness for C1: a batch with two concurrent waiters and two late
callers against an empty cache and a succeeding cluster API. -/
theorem createFunctionBatch_single_flight_witness :
    fn1.spec.invokeStrategy.executionStrategy.executorType = .container ∧
    Container.getObjName fn1 = some objName1 ∧
    (∃ res events fsc1 lateRes fsc2,
      Container.fnCreate envStd fscEmpty fn1 3 = some (res, events, fsc1) ∧
      Container.lateCalls fn1 fsc1 3 2 = (lateRes, fsc2) ∧
      Container.createFunctionBatch envStd fscEmpty fn1 3 2 2 =
        some (List.replicate (1 + 2) (Container.wrapThrottled fn1 res)
          ++ lateRes, events, fsc2) ∧
      events.countP isCreateSvcEvent ≤ 1 ∧
      events.countP isCreateDeplEvent ≤ 1 ∧
      events.countP isCreateHpaEvent ≤ 1 ∧
      (∀ meta pub, fsc1.byFunctionUID.find? fn1.metadata.uid = some meta →
        fsc1.byFunction.find? (CacheKeyURFromMeta meta) = some pub →
        lateRes = List.replicate 2 (.ok (some { pub with atime := 3 })))) :=
  ⟨by decide, by decide,
    createFunctionBatch_single_flight envStd fscEmpty fn1 3 2 2 objName1
      (by decide) (by decide)⟩
